import Mathlib

/-!
Verification of the result-interpretation and chart-synthesis pipeline of the
PathFinder repository (src/src/database/echarts.py and
src/src/database/echarts_generator.py), via a shallow embedding of the Python
code into Lean.  Python runtime values are modelled by the inductive `PyVal`;
fallible Python code (code that can raise) is modelled in `Except Unit`;
the concrete regular expressions used by the source are modelled by dedicated
backtracking matchers that follow the semantics of the Python `re` module for
those exact patterns.
-/

set_option maxHeartbeats 1000000

namespace PathFinder

/-- Model of a Python runtime value as it occurs in this code base.
Numbers are `Int` for Python ints and exact rationals for Python floats
(the float values handled by these claims are produced by parsing decimal
literals, which is exact; IEEE rounding is not modelled).  Dictionaries are
insertion-ordered association lists with string keys, matching how every
dict in the embedded code is built. -/
inductive PyVal where
  | none : PyVal
  | bool : Bool → PyVal
  | int : Int → PyVal
  | float : Rat → PyVal
  | str : String → PyVal
  | list : List PyVal → PyVal
  | tuple : List PyVal → PyVal
  | dict : List (String × PyVal) → PyVal

/-- Numeric view of a Python value: `bool`, `int` and `float` form one numeric
tower under Python comparison and equality (`True == 1`, `1 == 1.0`). -/
def pyNum : PyVal → Option Rat
  | .bool b => some (if b then 1 else 0)
  | .int n => some (n : Rat)
  | .float q => some q
  | .none => Option.none
  | .str _ => Option.none
  | .list _ => Option.none
  | .tuple _ => Option.none
  | .dict _ => Option.none

/-- First value stored under a key in an association list (Python dict lookup). -/
def lookupStr (k : String) : List (String × PyVal) → Option PyVal
  | [] => Option.none
  | (k2, v) :: rest => if k2 == k then some v else lookupStr k rest

mutual

/-- Python `==` on the values modelled here: numbers compare by value across
`bool`/`int`/`float`, strings by content, lists with lists and tuples with
tuples elementwise, dicts as unordered key-value maps; any other combination
is unequal.  Builtin `==` never raises. -/
def pyEq (a b : PyVal) : Bool :=
  match pyNum a, pyNum b with
  | some x, some y => x == y
  | _, _ =>
    match a, b with
    | .none, .none => true
    | .str s, .str t => s == t
    | .list xs, .list ys => pyEqList xs ys
    | .tuple xs, .tuple ys => pyEqList xs ys
    | .dict xs, .dict ys => (xs.length == ys.length) && pyEqPairs xs ys
    | _, _ => false

/-- Elementwise equality of Python sequences. -/
def pyEqList (xs ys : List PyVal) : Bool :=
  match xs, ys with
  | [], [] => true
  | x :: xs2, y :: ys2 => pyEq x y && pyEqList xs2 ys2
  | _, _ => false

/-- Every key of the first dict maps to an equal value in the second. -/
def pyEqPairs (xs ys : List (String × PyVal)) : Bool :=
  match xs with
  | [] => true
  | (k, v) :: rest =>
    (match lookupStr k ys with
     | some w => pyEq v w
     | Option.none => false) && pyEqPairs rest ys

end

mutual

/-- Python `<` as used by `max`: numbers compare by value, strings by code
points, lists with lists and tuples with tuples lexicographically; any other
combination raises `TypeError`, modelled as `.error ()`. -/
def pyLt (a b : PyVal) : Except Unit Bool :=
  match pyNum a, pyNum b with
  | some x, some y => .ok (decide (x < y))
  | _, _ =>
    match a, b with
    | .str s, .str t => .ok (decide (s < t))
    | .list xs, .list ys => pyLtList xs ys
    | .tuple xs, .tuple ys => pyLtList xs ys
    | _, _ => .error ()

/-- Lexicographic `<` on Python sequences: skip equal prefixes (`==` cannot
raise), then compare the first differing elements. -/
def pyLtList (xs ys : List PyVal) : Except Unit Bool :=
  match xs, ys with
  | [], [] => .ok false
  | [], _ :: _ => .ok true
  | _ :: _, [] => .ok false
  | x :: xs2, y :: ys2 =>
    if pyEq x y then pyLtList xs2 ys2 else pyLt x y

end

/-- Python `x > m` (used by `max`), via the builtin total order: `x > m` and
`m < x` agree, and raise, on exactly the same builtin value pairs. -/
def pyGt (x m : PyVal) : Except Unit Bool := pyLt m x

/-- Running-maximum loop of Python `max`: replace the current maximum whenever
the next element compares greater. -/
def pyMaxGo : PyVal → List PyVal → Except Unit PyVal
  | m, [] => .ok m
  | m, v :: vs => do
    let b ← pyGt v m
    pyMaxGo (if b then v else m) vs

/-- Python `max` over a list.  Empty input raises `ValueError`; a comparison
between incompatible values raises `TypeError`. -/
def pyMax : List PyVal → Except Unit PyVal
  | [] => .error ()
  | x :: xs => pyMaxGo x xs

/-- Effectful map in `Except`, evaluated left to right with the first error
propagated — the evaluation order of a Python list comprehension whose body
may raise. -/
def mapExc {α β : Type} (l : List α) (f : α → Except Unit β) : Except Unit (List β) :=
  match l with
  | [] => .ok []
  | x :: xs => do
    let y ← f x
    let ys ← mapExc xs f
    pure (y :: ys)

/-- Python truthiness of the values modelled here. -/
def pyTruthy : PyVal → Bool
  | .none => false
  | .bool b => b
  | .int n => n != 0
  | .float q => q != 0
  | .str s => s != ""
  | .list xs => !xs.isEmpty
  | .tuple xs => !xs.isEmpty
  | .dict kvs => !kvs.isEmpty

/-- Characters matched by the regex class `\s` and stripped by `str.strip()`
(the source only ever handles ASCII whitespace). -/
def pyIsSpace (c : Char) : Bool :=
  c == ' ' || c == '\t' || c == '\n' || c == '\r' || c == '\x0b' || c == '\x0c'

/-- Drop leading and trailing characters satisfying `p` (the two-sided strip
underlying `str.strip` and `str.strip(chars)`). -/
def stripWhile (p : Char → Bool) (l : List Char) : List Char :=
  ((l.dropWhile p).reverse.dropWhile p).reverse

/-- Python `str.strip()`. -/
def pyStrip (s : String) : String :=
  String.mk (stripWhile pyIsSpace s.data)

/-- Python `str.strip(chars)`: strip any character of the given set from both
ends. -/
def pyStripSet (set : List Char) (s : String) : String :=
  String.mk (stripWhile (fun c => set.contains c) s.data)

/-- Model of `re.sub(r"[\[\]]", "", s)`: delete every square bracket. -/
def removeBrackets (s : String) : String :=
  String.mk (s.data.filter (fun c => !(c == '[' || c == ']')))

/-- Character membership test, Python `c in s` for a single character. -/
def containsChar (s : String) (c : Char) : Bool :=
  s.data.contains c

/-- Whether `pat` is a prefix of `l`. -/
def listStartsWith (pat l : List Char) : Bool :=
  match pat, l with
  | [], _ => true
  | _ :: _, [] => false
  | p :: ps, c :: cs => p == c && listStartsWith ps cs

/-- Whether `sub` occurs as a contiguous substring of `l` (Python `sub in s`). -/
def listHasSub (sub : List Char) : List Char → Bool
  | [] => listStartsWith sub []
  | c :: cs => listStartsWith sub (c :: cs) || listHasSub sub cs

/-- Python `sub in s` on strings. -/
def containsSub (s sub : String) : Bool :=
  listHasSub sub.data s.data

/-- Index of the first occurrence of `sub` in `l`, if any. -/
def firstSubIdx (sub : List Char) : List Char → Option Nat
  | [] => if listStartsWith sub [] then some 0 else Option.none
  | c :: cs =>
    if listStartsWith sub (c :: cs) then some 0
    else (firstSubIdx sub cs).map (· + 1)

/-- Python `s.split(sep, 1)[1]` for a separator known to occur: the text after
the first occurrence of `sep`. -/
def afterFirstSub (s sep : String) : String :=
  match firstSubIdx sep.data s.data with
  | some i => String.mk (s.data.drop (i + sep.data.length))
  | Option.none => s

/-- ASCII lowercasing, Python `str.lower()` (the source only compares ASCII
keywords, so non-ASCII case folding is not modelled). -/
def lowerAscii (s : String) : String :=
  String.mk (s.data.map Char.toLower)

/-- Case-insensitive prefix test against an already-lowercase pattern. -/
def startsWithCI (pat l : List Char) : Bool :=
  listStartsWith pat (l.map Char.toLower |>.take pat.length)

/-- Length of the leading whitespace run (the maximal text a greedy `\s+`
can take at this position). -/
def maxWsRun (l : List Char) : Nat :=
  (l.takeWhile pyIsSpace).length

/-- Tail test for the pattern `SELECT\s+(.*?)\s+FROM`: does `\s+FROM` match at
the start of `l`?  The `\s+` may take any length from 1 to the whitespace run,
since the pattern ends after `FROM` any split that reaches `FROM` succeeds. -/
def wsThenFrom (l : List Char) : Bool :=
  (List.range (maxWsRun l)).any (fun j => startsWithCI "from".data (l.drop (j + 1)))

/-- Lazy group search for `(.*?)\s+FROM`: the group takes the fewest characters
(DOTALL: any character) after which `\s+FROM` matches; returns the group. -/
def findLazyMid : List Char → Option (List Char)
  | [] => if wsThenFrom [] then some [] else Option.none
  | c :: cs =>
    if wsThenFrom (c :: cs) then some []
    else (findLazyMid cs).map (fun mid => c :: mid)

/-- Greedy `\s+` after `SELECT`, tried longest first (`n` counts down), each
followed by the lazy group search; first success wins, as in backtracking. -/
def greedyWsThenMid (r : List Char) : Nat → Option (List Char)
  | 0 => Option.none
  | n + 1 =>
    match findLazyMid (r.drop (n + 1)) with
    | some mid => some mid
    | Option.none => greedyWsThenMid r n

/-- Model of `re.search(r"SELECT\s+(.*?)\s+FROM", s, re.IGNORECASE | re.DOTALL)`,
returning group 1 of the leftmost match: at each start position try `SELECT`
(case-insensitive), then greedy `\s+`, then the lazy group. -/
def searchSelectFrom : List Char → Option (List Char)
  | [] => Option.none
  | c :: cs =>
    if startsWithCI "select".data (c :: cs) then
      match greedyWsThenMid ((c :: cs).drop 6) (maxWsRun ((c :: cs).drop 6)) with
      | some mid => some mid
      | Option.none => searchSelectFrom cs
    else searchSelectFrom cs

/-- Word characters for the regex `\b` boundary (`[A-Za-z0-9_]`; the source
never relies on unicode word characters). -/
def isWordChar (c : Char) : Bool :=
  c.isAlphanum || c == '_'

/-- Group of `(.+)$` (no DOTALL): the greedy `.+` cannot cross a newline and
`$` matches at end of string or just before a single trailing newline, so the
group is the whole text (newline-free, nonempty) or the text before one final
newline. -/
def greedyToDollar (rest : List Char) : Option (List Char) :=
  let u := rest.takeWhile (fun c => c != '\n')
  if u.isEmpty then Option.none
  else if u.length == rest.length then some rest
  else if u.length + 1 == rest.length then some u
  else Option.none

/-- Tail of the alias pattern after `AS`: `\s+(.+)$`, greedy `\s+` tried
longest first. -/
def asAliasTail (r : List Char) : Nat → Option (List Char)
  | 0 => Option.none
  | n + 1 =>
    match greedyToDollar (r.drop (n + 1)) with
    | some g => some g
    | Option.none => asAliasTail r n

/-- Model of `re.search(r"\bAS\s+(.+)$", col, re.IGNORECASE)`, returning group 1
of the leftmost match.  `prev` is the character before the current position,
for the `\b` test (the next literal is the word character `A`, so the boundary
holds exactly when the previous character is absent or not a word character). -/
def searchAsAlias (prev : Option Char) : List Char → Option String
  | [] => Option.none
  | c :: cs =>
    let boundary := match prev with
      | Option.none => true
      | some p => !isWordChar p
    match cs with
    | d :: ds =>
      if boundary && c.toLower == 'a' && d.toLower == 's' then
        match asAliasTail ds (maxWsRun ds) with
        | some g => some (String.mk g)
        | Option.none => searchAsAlias (some c) cs
      else searchAsAlias (some c) cs
    | [] => Option.none

/-- Does `re.sub` with this text as the REPLACEMENT template raise?  The source
line `re.sub(r".*\(.*?\)", col, "")` passes the column text as the replacement;
the template is parsed even though the pattern never matches, so a backslash
followed by nothing, by `g`, by a nonzero digit (a group reference — the
pattern has no groups), or by an ASCII letter outside the allowed escapes
`a b f n r t v` raises `re.error`. -/
def badReplTemplate : List Char → Bool
  | [] => false
  | '\\' :: [] => true
  | '\\' :: c :: rest =>
    if c == 'g' then true
    else if c.isDigit && c != '0' then true
    else if c.isAlpha && !(["a", "b", "f", "n", "r", "t", "v"].contains (String.mk [c])) then true
    else badReplTemplate rest
  | _ :: rest => badReplTemplate rest

/-- Text after the last `.` of a string (Python `s.split(".")[-1]`). -/
def lastDotSegment (s : String) : String :=
  String.mk ((s.data.reverse.takeWhile (fun c => c != '.')).reverse)

/-- Comma split of the SELECT clause at parenthesis depth 0, exactly as the
source loop: depth goes up at `(` and down at `)` (and may go negative), a
comma at depth 0 emits the stripped text collected so far, and a nonempty
remainder is emitted stripped at the end. -/
def splitCols : List Char → Int → List Char → List String
  | [], _, cur => if cur.isEmpty then [] else [pyStrip (String.mk cur.reverse)]
  | c :: cs, depth, cur =>
    if c == '(' then splitCols cs (depth + 1) (c :: cur)
    else if c == ')' then splitCols cs (depth - 1) (c :: cur)
    else if c == ',' && depth == 0 then
      pyStrip (String.mk cur.reverse) :: splitCols cs depth []
    else splitCols cs depth (c :: cur)

/-- Per-projection processing of `extract_column_names_from_sql` (the loop body
over split columns).  `.error ()` models the `re.error` raised when the column
text is an invalid replacement template for the swapped-argument
`re.sub(r".*\(.*?\)", col, "")` on line 71; otherwise that call rewrites the
EMPTY string, the pattern needs a literal parenthesis, so it never matches and
`cleaned` is always the empty string, making the wildcard-skip and dot-split
branches below it dead code. -/
def processCol (col0 : String) : Except Unit (List String) :=
  let col := pyStrip col0
  match searchAsAlias Option.none col.data with
  | some al => .ok [removeBrackets (pyStrip al)]
  | Option.none =>
    if badReplTemplate col.data then .error ()
    else
      let cleaned := ""
      let cleaned := removeBrackets cleaned
      let cleaned := pyStrip cleaned
      if cleaned == "*" then .ok []
      else
        let cleaned := if containsChar cleaned '.' then lastDotSegment cleaned else cleaned
        if cleaned != "" then .ok [cleaned]
        else .ok [removeBrackets (pyStrip col)]

/-- Model of `extract_column_names_from_sql` (echarts.py lines 11-94): find the
`SELECT ... FROM` clause, split it on top-level commas, and turn each
projection into a column name; any raised exception inside the body is caught
and yields the empty list. -/
def extract_column_names_from_sql (sql_query : String) : List String :=
  if sql_query == "" then []
  else
    match searchSelectFrom sql_query.data with
    | Option.none => []
    | some clause =>
      match mapExc (splitCols clause 0 []) processCol with
      | .ok names => names.flatten
      | .error _ => []

/-- Validity of a digit group with underscore separators as accepted by Python
`int()` and `float()`: nonempty, every character a digit or `_`, first and
last characters digits, and no two consecutive underscores. -/
def underscoreDigitsOk (l : List Char) : Bool :=
  !l.isEmpty &&
  (match l.head? with | some c => c.isDigit | Option.none => false) &&
  (match l.getLast? with | some c => c.isDigit | Option.none => false) &&
  l.all (fun c => c.isDigit || c == '_') &&
  !(l.zip l.tail).any (fun p => p.1 == '_' && p.2 == '_')

/-- Numeric value of a digit group, ignoring underscore separators. -/
def digitsVal (l : List Char) : Nat :=
  (l.filter Char.isDigit).foldl (fun a c => a * 10 + (c.toNat - 48)) 0

/-- Model of Python `int(s)`: optional surrounding whitespace, optional sign,
then decimal digits with underscore separators (non-decimal bases and
non-ASCII digits are not modelled; they never occur in this pipeline). -/
def pyInt (s : String) : Option Int :=
  let t := stripWhile pyIsSpace s.data
  match t with
  | '+' :: rest => if underscoreDigitsOk rest then some (digitsVal rest : Int) else Option.none
  | '-' :: rest => if underscoreDigitsOk rest then some (-(digitsVal rest : Int)) else Option.none
  | rest => if underscoreDigitsOk rest then some (digitsVal rest : Int) else Option.none

/-- Index of the first `e` or `E` in a character list, if any. -/
def firstExpIdx : List Char → Option Nat
  | [] => Option.none
  | c :: cs =>
    if c == 'e' || c == 'E' then some 0
    else (firstExpIdx cs).map (· + 1)

/-- Mantissa forms accepted by Python `float`: `D`, `D.`, `D.F`, `.F` where `D`
and `F` are underscore-separated digit groups; returns the exact value. -/
def parseMantissa (l : List Char) : Option Rat :=
  match firstSubIdx ['.'] l with
  | Option.none => if underscoreDigitsOk l then some ((digitsVal l : Int) : Rat) else Option.none
  | some i =>
    let ip := l.take i
    let fp := l.drop (i + 1)
    let ipOk := ip.isEmpty || underscoreDigitsOk ip
    let fpOk := fp.isEmpty || underscoreDigitsOk fp
    if ipOk && fpOk && !(ip.isEmpty && fp.isEmpty) then
      some (((digitsVal ip : Int) : Rat) + ((digitsVal fp : Int) : Rat) / (10 : Rat) ^ (fp.filter Char.isDigit).length)
    else Option.none

/-- Model of Python `float(s)` for finite decimal inputs: optional whitespace
and sign, mantissa, optional exponent.  The value is exact (a rational);
`inf`/`nan` spellings are not modelled — the call sites only reach `float` on
strings containing a dot, for which those spellings fail in Python too. -/
def pyFloat (s : String) : Option Rat :=
  let t := stripWhile pyIsSpace s.data
  let signed : List Char → Option Rat := fun body =>
    match firstExpIdx body with
    | Option.none => parseMantissa body
    | some i =>
      let mant := body.take i
      let ex := body.drop (i + 1)
      let exSigned : Option Int :=
        match ex with
        | '+' :: r => if underscoreDigitsOk r then some (digitsVal r : Int) else Option.none
        | '-' :: r => if underscoreDigitsOk r then some (-(digitsVal r : Int)) else Option.none
        | r => if underscoreDigitsOk r then some (digitsVal r : Int) else Option.none
      match parseMantissa mant, exSigned with
      | some m, some e =>
        some (if 0 ≤ e then m * (10 : Rat) ^ e.toNat else m / (10 : Rat) ^ (-e).toNat)
      | _, _ => Option.none
  match t with
  | '+' :: rest => signed rest
  | '-' :: rest => (signed rest).map (fun q => -q)
  | rest => signed rest

/-- Skip Python source whitespace. -/
def skipWs (l : List Char) : List Char :=
  l.dropWhile pyIsSpace

/-- Decode a quoted Python string literal body (after the opening quote `q`),
returning the content and the text after the closing quote.  The common
single-character escapes are decoded; an unknown escape keeps the backslash,
as Python does.  Hex/unicode escapes and triple quotes are not modelled (no
input of this pipeline contains them). -/
def parseStrLitBody (q : Char) : List Char → Option (List Char × List Char)
  | [] => Option.none
  | '\\' :: e :: rest =>
    let dec : Option Char :=
      if e == 'n' then some '\n' else if e == 't' then some '\t'
      else if e == 'r' then some '\r' else if e == '\\' then some '\\'
      else if e == '\'' then some '\'' else if e == '"' then some '"'
      else if e == 'f' then some '\x0c' else if e == 'v' then some '\x0b'
      else if e == 'b' then some '\x08' else if e == 'a' then some '\x07'
      else if e == '0' then some '\x00' else Option.none
    (parseStrLitBody q rest).map (fun p =>
      match dec with
      | some c => (c :: p.1, p.2)
      | Option.none => ('\\' :: e :: p.1, p.2))
  | c :: rest =>
    if c == q then some ([], rest)
    else if c == '\n' then Option.none
    else (parseStrLitBody q rest).map (fun p => (c :: p.1, p.2))

/-- Lex the digits/dot/exponent portion of a number token starting at the
current position (sign already consumed); stops before an `e` not followed by
a digit or signed digit. -/
def lexNum : List Char → Bool → List Char × List Char
  | [], _ => ([], [])
  | c :: cs, sawE =>
    if c.isDigit || c == '_' || c == '.' then
      let (t, r) := lexNum cs sawE
      (c :: t, r)
    else if (c == 'e' || c == 'E') && !sawE then
      match cs with
      | d :: ds =>
        if d.isDigit then
          let (t, r) := lexNum ds true
          (c :: d :: t, r)
        else if (d == '+' || d == '-') then
          match ds with
          | d2 :: ds2 =>
            if d2.isDigit then
              let (t, r) := lexNum ds2 true
              (c :: d :: d2 :: t, r)
            else ([], c :: cs)
          | [] => ([], c :: cs)
        else ([], c :: cs)
      | [] => ([], c :: cs)
    else ([], c :: cs)

/-- Turn a lexed number token into a Python value, as the literal grammar does:
a token containing a dot or exponent is a float, otherwise an int. -/
def numTokVal (neg : Bool) (tok : List Char) : Option PyVal :=
  if tok.any (fun c => c == '.' || c == 'e' || c == 'E') then
    (pyFloat (String.mk tok)).map (fun q => PyVal.float (if neg then -q else q))
  else
    (pyInt (String.mk tok)).map (fun n => PyVal.int (if neg then -n else n))

/-- True when the character may continue an identifier (used to delimit the
keywords `True`, `False`, `None`). -/
def identCont (c : Char) : Bool :=
  c.isAlphanum || c == '_'

mutual

/-- Recursive-descent model of `ast.literal_eval` on the literal subset this
pipeline can meet: numbers with optional single sign, quoted strings, `True`,
`False`, `None`, lists, tuples (a parenthesized single value without a comma
is that value), and string-keyed dicts.  `fuel` bounds recursion; the callers
pass more than enough for any input.  Unsupported literal forms (sets,
non-string dict keys, hex literals, triple quotes, implicit string
concatenation) return `Option.none`, which the caller treats exactly like the
`ValueError`/`SyntaxError` fall-through in the source. -/
def parseLitVal : Nat → List Char → Option (PyVal × List Char)
  | 0, _ => Option.none
  | Nat.succ fuel, l0 =>
    match skipWs l0 with
    | [] => Option.none
    | c :: cs =>
      if c == '[' then
        match parseLitItems fuel ']' cs with
        | some (items, _, rest) => some (PyVal.list items, rest)
        | Option.none => Option.none
      else if c == '(' then
        match parseLitItems fuel ')' cs with
        | some ([x], false, rest) => some (x, rest)
        | some (items, _, rest) => some (PyVal.tuple items, rest)
        | Option.none => Option.none
      else if c == '{' then
        match parseLitEntries fuel cs with
        | some (entries, rest) => some (PyVal.dict entries, rest)
        | Option.none => Option.none
      else if c == '\'' || c == '"' then
        match parseStrLitBody c cs with
        | some (body, rest) => some (PyVal.str (String.mk body), rest)
        | Option.none => Option.none
      else if listStartsWith "True".data (c :: cs) &&
              !(((c :: cs).drop 4).head?.elim false identCont) then
        some (PyVal.bool true, (c :: cs).drop 4)
      else if listStartsWith "False".data (c :: cs) &&
              !(((c :: cs).drop 5).head?.elim false identCont) then
        some (PyVal.bool false, (c :: cs).drop 5)
      else if listStartsWith "None".data (c :: cs) &&
              !(((c :: cs).drop 4).head?.elim false identCont) then
        some (PyVal.none, (c :: cs).drop 4)
      else if c == '+' || c == '-' then
        let (tok, rest) := lexNum cs false
        if tok.isEmpty then Option.none
        else (numTokVal (c == '-') tok).map (fun v => (v, rest))
      else if c.isDigit || c == '.' then
        let (tok, rest) := lexNum (c :: cs) false
        if tok.isEmpty then Option.none
        else (numTokVal false tok).map (fun v => (v, rest))
      else Option.none

/-- Comma-separated values up to a closing bracket, for list and tuple
literals; the boolean reports whether a comma was seen (needed to tell a
one-element tuple from a parenthesized value). -/
def parseLitItems : Nat → Char → List Char → Option (List PyVal × Bool × List Char)
  | 0, _, _ => Option.none
  | Nat.succ fuel, close, l =>
    match skipWs l with
    | [] => Option.none
    | c :: cs =>
      if c == close then some ([], false, cs)
      else
        match parseLitVal fuel l with
        | some (v, rest) => parseLitMore fuel close v rest
        | Option.none => Option.none

/-- Continuation after one parsed item: closing bracket, or a comma followed by
either the closing bracket (trailing comma) or further items. -/
def parseLitMore : Nat → Char → PyVal → List Char → Option (List PyVal × Bool × List Char)
  | 0, _, _, _ => Option.none
  | Nat.succ fuel, close, v, l =>
    match skipWs l with
    | [] => Option.none
    | c :: cs =>
      if c == close then some ([v], false, cs)
      else if c == ',' then
        match skipWs cs with
        | [] => Option.none
        | c2 :: cs2 =>
          if c2 == close then some ([v], true, cs2)
          else
            match parseLitVal fuel (c2 :: cs2) with
            | some (v2, rest) =>
              match parseLitMore fuel close v2 rest with
              | some (items, _, rest2) => some (v :: items, true, rest2)
              | Option.none => Option.none
            | Option.none => Option.none
      else Option.none

/-- Dict entries `key: value` with string keys, up to the closing brace. -/
def parseLitEntries : Nat → List Char → Option (List (String × PyVal) × List Char)
  | 0, _ => Option.none
  | Nat.succ fuel, l =>
    match skipWs l with
    | [] => Option.none
    | c :: cs =>
      if c == '}' then some ([], cs)
      else
        match parseLitVal fuel l with
        | some (PyVal.str k, rest) =>
          match skipWs rest with
          | ':' :: rest2 =>
            match parseLitVal fuel rest2 with
            | some (v, rest3) =>
              match skipWs rest3 with
              | '}' :: rest4 => some ([(k, v)], rest4)
              | ',' :: rest4 =>
                match skipWs rest4 with
                | '}' :: rest5 => some ([(k, v)], rest5)
                | more =>
                  match parseLitEntries fuel more with
                  | some (entries, rest5) => some ((k, v) :: entries, rest5)
                  | Option.none => Option.none
              | _ => Option.none
            | Option.none => Option.none
          | _ => Option.none
        | _ => Option.none

end

/-- Model of `ast.literal_eval(data)`: parse one literal and require only
trailing whitespace after it; `Option.none` stands for the raised
`ValueError`/`SyntaxError`. -/
def literalEval (s : String) : Option PyVal :=
  match parseLitVal (4 * s.data.length + 16) s.data with
  | some (v, rest) => if (skipWs rest).isEmpty then some v else Option.none
  | Option.none => Option.none

/-- JSON whitespace (stricter than Python source whitespace). -/
def jsonWs (c : Char) : Bool :=
  c == ' ' || c == '\t' || c == '\n' || c == '\r'

/-- Hex digit value. -/
def hexVal (c : Char) : Option Nat :=
  if c.isDigit then some (c.toNat - 48)
  else if 'a' ≤ c && c ≤ 'f' then some (c.toNat - 87)
  else if 'A' ≤ c && c ≤ 'F' then some (c.toNat - 55)
  else Option.none

/-- JSON string body after the opening quote: strict escape set, `\uXXXX`
decoded as a single code unit (surrogate pairing not modelled). -/
def parseJsonStrBody : List Char → Option (List Char × List Char)
  | [] => Option.none
  | '\\' :: e :: rest =>
    if e == 'u' then
      match rest with
      | h1 :: h2 :: h3 :: h4 :: rest2 =>
        match hexVal h1, hexVal h2, hexVal h3, hexVal h4 with
        | some a, some b, some c, some d =>
          let n := ((a * 16 + b) * 16 + c) * 16 + d
          let ch := if h : n.isValidChar then Char.ofNatAux n h else ' '
          (parseJsonStrBody rest2).map (fun p => (ch :: p.1, p.2))
        | _, _, _, _ => Option.none
      | _ => Option.none
    else
      let dec : Option Char :=
        if e == '"' then some '"' else if e == '\\' then some '\\'
        else if e == '/' then some '/' else if e == 'b' then some '\x08'
        else if e == 'f' then some '\x0c' else if e == 'n' then some '\n'
        else if e == 'r' then some '\r' else if e == 't' then some '\t'
        else Option.none
      match dec with
      | some ch => (parseJsonStrBody rest).map (fun p => (ch :: p.1, p.2))
      | Option.none => Option.none
  | c :: rest =>
    if c == '"' then some ([], rest)
    else if c.toNat < 32 then Option.none
    else (parseJsonStrBody rest).map (fun p => (c :: p.1, p.2))

/-- Signed exponent digits after `e`/`E`. -/
def jsonExpTail (neg : Bool) (base : Rat) (r : List Char) : Option (PyVal × List Char) :=
  let (esign, r2) :=
    match r with
    | '+' :: rr => ((1 : Int), rr)
    | '-' :: rr => ((-1 : Int), rr)
    | rr => ((1 : Int), rr)
  let ds := r2.takeWhile Char.isDigit
  if ds.isEmpty then Option.none
  else
    let e : Int := esign * (digitsVal ds : Int)
    let v := if 0 ≤ e then base * (10 : Rat) ^ e.toNat else base / (10 : Rat) ^ (-e).toNat
    some (PyVal.float (if neg then -v else v), r2.drop ds.length)

/-- Optional exponent after the integer/fraction part of a JSON number. -/
def jsonNumWithExp (neg : Bool) (ip : Int) (frac : Option (List Char)) (rest : List Char) : Option (PyVal × List Char) :=
  let base : Rat :=
    match frac with
    | some f => ((ip : Rat) + ((digitsVal f : Int) : Rat) / (10 : Rat) ^ f.length)
    | Option.none => (ip : Rat)
  match rest with
  | 'e' :: r => jsonExpTail neg base r
  | 'E' :: r => jsonExpTail neg base r
  | _ =>
    match frac with
    | some _ => some (PyVal.float (if neg then -base else base), rest)
    | Option.none => some (PyVal.int (if neg then -ip else ip), rest)

/-- JSON number at the current position: `-? (0 | [1-9][0-9]*) (. [0-9]+)?
([eE] [+-]? [0-9]+)?`; integral spellings become ints, others floats. -/
def parseJsonNum (l : List Char) : Option (PyVal × List Char) :=
  let core : List Char → Option (Int × List Char) := fun m =>
    match m with
    | [] => Option.none
    | c :: cs =>
      if c == '0' then some (0, cs)
      else if c.isDigit then
        let ds := cs.takeWhile Char.isDigit
        some ((digitsVal (c :: ds) : Int), cs.drop ds.length)
      else Option.none
  let (neg, m) :=
    match l with
    | '-' :: rest => (true, rest)
    | rest => (false, rest)
  match core m with
  | Option.none => Option.none
  | some (ip, rest1) =>
    match rest1 with
    | '.' :: r =>
      let ds := r.takeWhile Char.isDigit
      if ds.isEmpty then some (PyVal.int (if neg then -ip else ip), rest1)
      else jsonNumWithExp neg ip (some ds) (r.drop ds.length)
    | _ => jsonNumWithExp neg ip Option.none rest1

mutual

/-- Recursive-descent model of `json.loads` values (``NaN``/``Infinity``
extensions are not modelled; they never reach this pipeline). -/
def parseJsonVal : Nat → List Char → Option (PyVal × List Char)
  | 0, _ => Option.none
  | Nat.succ fuel, l0 =>
    match l0.dropWhile jsonWs with
    | [] => Option.none
    | c :: cs =>
      if c == '[' then
        match (cs.dropWhile jsonWs) with
        | ']' :: rest => some (PyVal.list [], rest)
        | _ => parseJsonArr fuel cs []
      else if c == '{' then
        match (cs.dropWhile jsonWs) with
        | '}' :: rest => some (PyVal.dict [], rest)
        | _ => parseJsonObj fuel cs []
      else if c == '"' then
        match parseJsonStrBody cs with
        | some (body, rest) => some (PyVal.str (String.mk body), rest)
        | Option.none => Option.none
      else if listStartsWith "true".data (c :: cs) then
        some (PyVal.bool true, (c :: cs).drop 4)
      else if listStartsWith "false".data (c :: cs) then
        some (PyVal.bool false, (c :: cs).drop 5)
      else if listStartsWith "null".data (c :: cs) then
        some (PyVal.none, (c :: cs).drop 4)
      else
        parseJsonNum (c :: cs)

/-- Array elements (at least one; the empty array is handled by the caller). -/
def parseJsonArr : Nat → List Char → List PyVal → Option (PyVal × List Char)
  | 0, _, _ => Option.none
  | Nat.succ fuel, l, acc =>
    match parseJsonVal fuel l with
    | some (v, rest) =>
      match rest.dropWhile jsonWs with
      | ',' :: rest2 => parseJsonArr fuel rest2 (v :: acc)
      | ']' :: rest2 => some (PyVal.list (v :: acc).reverse, rest2)
      | _ => Option.none
    | Option.none => Option.none

/-- Object members (at least one; the empty object is handled by the caller). -/
def parseJsonObj : Nat → List Char → List (String × PyVal) → Option (PyVal × List Char)
  | 0, _, _ => Option.none
  | Nat.succ fuel, l, acc =>
    match l.dropWhile jsonWs with
    | '"' :: cs =>
      match parseJsonStrBody cs with
      | some (kbody, rest) =>
        match rest.dropWhile jsonWs with
        | ':' :: rest2 =>
          match parseJsonVal fuel rest2 with
          | some (v, rest3) =>
            match rest3.dropWhile jsonWs with
            | ',' :: rest4 => parseJsonObj fuel rest4 ((String.mk kbody, v) :: acc)
            | '}' :: rest4 => some (PyVal.dict ((String.mk kbody, v) :: acc).reverse, rest4)
            | _ => Option.none
          | Option.none => Option.none
        | _ => Option.none
      | Option.none => Option.none
    | _ => Option.none

end

/-- Model of `json.loads(data)`: one JSON value with only whitespace around
it; `Option.none` stands for the raised `JSONDecodeError`. -/
def jsonLoads (s : String) : Option PyVal :=
  match parseJsonVal (4 * s.data.length + 16) s.data with
  | some (v, rest) => if (rest.dropWhile jsonWs).isEmpty then some v else Option.none
  | Option.none => Option.none

/-- Python `dict` insertion: an existing key keeps its position and takes the
new value, a new key is appended. -/
def pyDictInsert (d : List (String × PyVal)) (k : String) (v : PyVal) : List (String × PyVal) :=
  if d.any (fun p => p.1 == k) then d.map (fun p => if p.1 == k then (k, v) else p)
  else d ++ [(k, v)]

/-- Python `dict(pairs)`: left-to-right insertion. -/
def pyDictOfPairs (pairs : List (String × PyVal)) : List (String × PyVal) :=
  pairs.foldl (fun d p => pyDictInsert d p.1 p.2) []

/-- Test for a Python string value. -/
def isStrVal : PyVal → Bool
  | .str _ => true
  | _ => false

/-- String content of a value known to be a string. -/
def strValOf : PyVal → String
  | .str s => s
  | _ => ""

/-- Generic header names `col_0, col_1, …`. -/
def genericHeaders (n : Nat) : List String :=
  (List.range n).map (fun i => "col_" ++ toString i)

/-- Header selection shared verbatim by the two string-parsing paths of
`parse_sql_results` (echarts.py lines 137-153 and 194-211): (a) column names
extracted from the query when the query is nonempty, they are nonempty and
their count matches the first row; else (b) the first row as header when more
than one row exists and it is all strings; else (c) generic names.  Returns
the headers and the data rows (the first row is dropped in case (b)). -/
def chooseHeaders (rows : List (List PyVal)) (sql_query : String) : List String × List (List PyVal) :=
  match rows with
  | [] => ([], [])
  | r0 :: rest =>
    let headers := if sql_query != "" then extract_column_names_from_sql sql_query else []
    if !headers.isEmpty && headers.length == r0.length then (headers, r0 :: rest)
    else if (r0 :: rest).length > 1 && r0.all isStrVal then (r0.map strValOf, rest)
    else (genericHeaders r0.length, r0 :: rest)

/-- Row-to-dict conversion shared verbatim by the two string-parsing paths of
`parse_sql_results` (echarts.py lines 155-161 and 213-219): after header
selection, zip headers with each data row, keeping only rows whose field
count equals the header count (`if len(row) == len(headers)`). -/
def rowsToDicts (rows : List (List PyVal)) (sql_query : String) : List PyVal :=
  let hd := chooseHeaders rows sql_query
  hd.2.foldr (fun row acc =>
    if row.length == hd.1.length then PyVal.dict (pyDictOfPairs (hd.1.zip row)) :: acc
    else acc) []

/-- Elements yielded by iterating a Python value with `zip`/`for` (strings
yield their characters, dicts their keys); non-iterables raise `TypeError`. -/
def pyIterate : PyVal → Except Unit (List PyVal)
  | .list xs => .ok xs
  | .tuple xs => .ok xs
  | .str s => .ok (s.data.map (fun c => PyVal.str (String.mk [c])))
  | .dict kvs => .ok (kvs.map (fun kv => PyVal.str kv.1))
  | _ => .error ()

/-- Numeric coercion of one comma-separated field in the regex fallback path
(echarts.py lines 181-190): strip whitespace then quote characters, parse as
float when the text contains a dot and as int otherwise, keep the string on
failure. -/
def coerceVal (raw : String) : PyVal :=
  let val := pyStripSet ['\'', '"'] (pyStrip raw)
  if containsChar val '.' then
    match pyFloat val with
    | some q => PyVal.float q
    | Option.none => PyVal.str val
  else
    match pyInt val with
    | some n => PyVal.int n
    | Option.none => PyVal.str val

/-- Plain split on a character (Python `str.split(sep)`, always at least one
piece). -/
def splitChar (sep : Char) : List Char → List Char → List String
  | [], cur => [String.mk cur.reverse]
  | c :: cs, cur =>
    if c == sep then String.mk cur.reverse :: splitChar sep cs []
    else splitChar sep cs (c :: cur)

/-- Match of the regex `\),\s*\(` at the head of the list, returning the match
length: literal `),`, then the whitespace run (greedily maximal — a shorter
run would leave a whitespace character where `(` is required), then `(`. -/
def tupBoundaryAt : List Char → Option Nat
  | ')' :: ',' :: rest =>
    let n := maxWsRun rest
    if (rest.drop n).head? == some '(' then some (2 + n + 1) else Option.none
  | _ => Option.none

/-- Leftmost occurrence of the split boundary `\),\s*\(`: start index and
match length. -/
def findTupBoundary : List Char → Option (Nat × Nat)
  | [] => Option.none
  | c :: cs =>
    match tupBoundaryAt (c :: cs) with
    | some len => some (0, len)
    | Option.none => (findTupBoundary cs).map (fun p => (p.1 + 1, p.2))

/-- Model of `re.split(r"\),\s*\(", s)`: cut at each successive leftmost
boundary match. -/
def splitTupBoundaries : Nat → List Char → List String
  | 0, l => [String.mk l]
  | Nat.succ fuel, l =>
    match findTupBoundary l with
    | some (i, len) => String.mk (l.take i) :: splitTupBoundaries fuel (l.drop (i + len))
    | Option.none => [String.mk l]

/-- Match of the whole pattern `\[(\([^\)]+\)[,\s]*)+\]` starting right after
a `[`: one or more parenthesized nonempty `)`-free groups, each followed by a
run of commas/whitespace, then `]`.  Every quantifier here is forced (a
shorter greedy take leaves a character the next literal cannot match), so the
scan is deterministic. -/
def tupGroupsFrom : Nat → List Char → Bool
  | 0, _ => false
  | Nat.succ fuel, l =>
    match l with
    | '(' :: rest =>
      let body := rest.takeWhile (fun c => c != ')')
      if body.isEmpty then false
      else
        match rest.drop body.length with
        | ')' :: rest2 =>
          let rest3 := rest2.dropWhile (fun c => c == ',' || pyIsSpace c)
          match rest3 with
          | ']' :: _ => true
          | '(' :: _ => tupGroupsFrom fuel rest3
          | _ => false
        | _ => false
    | _ => false

/-- Model of `re.search(r"\[(\([^\)]+\)[,\s]*)+\]", s)` as a boolean: does the
pattern match anywhere? -/
def hasTupPattern : List Char → Bool
  | [] => false
  | c :: cs =>
    (match c :: cs with
     | '[' :: rest => tupGroupsFrom (rest.length + 1) rest
     | _ => false) || hasTupPattern cs

/-- String-input branch of `parse_sql_results` (echarts.py lines 118-227):
strip a `Result:` prefix, try the Python-literal path, then the regex
fallback, then JSON; each failed stage falls through to the next, and a
string surviving all of them reaches the final `isinstance(data, list)` check
(false for a string) and returns the empty list. -/
def parseStrData (s0 : String) (sql_query : String) : List PyVal :=
  let s := if containsSub s0 "Result:" then pyStrip (afterFirstSub s0 "Result:") else s0
  let litResult : Option (List PyVal) :=
    if (pyStrip s).data.head? == some '[' && containsChar s '(' then
      match literalEval s with
      | some (PyVal.list (x :: xs)) =>
        let rows := (x :: xs).filterMap (fun item =>
          match item with
          | PyVal.tuple es => some es
          | PyVal.list es => some es
          | _ => Option.none)
        if !rows.isEmpty then some (rowsToDicts rows sql_query) else Option.none
      | _ => Option.none
    else Option.none
  match litResult with
  | some res => res
  | Option.none =>
    if hasTupPattern s.data then
      let inner := pyStripSet ['[', ']'] s
      let tuple_strings := splitTupBoundaries (inner.data.length + 1) inner.data
      let rows := tuple_strings.map (fun ts =>
        (splitChar ',' (pyStripSet ['(', ')'] ts).data []).map coerceVal)
      -- `if values:` in the source is always true: `str.split(",")` yields at
      -- least one piece, so every tuple string contributes a row.
      if !rows.isEmpty then rowsToDicts rows sql_query
      else
        match jsonLoads s with
        | some (PyVal.list l) => l
        | _ => []
    else
      match jsonLoads s with
      | some (PyVal.list l) => l
      | _ => []

/-- Shared body of the list-input branch: generic headers of width `n`, one
truncating zip per row. -/
def parseTupleRows (l : List PyVal) (n : Nat) : List PyVal :=
  let headers := genericHeaders n
  match mapExc l (fun row =>
    (pyIterate row).map (fun es => PyVal.dict (pyDictOfPairs (headers.zip es)))) with
  | .ok out => out
  | .error _ => []

/-- List-input branch at the bottom of `parse_sql_results` (echarts.py lines
229-235): a nonempty list whose first element is a tuple or list gets generic
headers sized to the first element and `dict(zip(headers, row))` per row —
`zip` silently truncates to the shorter operand, and a non-iterable row makes
`zip` raise, which the enclosing handler turns into the empty list. -/
def parseNonDictList (l : List PyVal) : List PyVal :=
  match l with
  | [] => []
  | first :: _ =>
    match first with
    | PyVal.tuple es0 => parseTupleRows l es0.length
    | PyVal.list es0 => parseTupleRows l es0.length
    | _ => []

/-- Model of `parse_sql_results` (echarts.py lines 97-245).  Falsy input gives
the empty list; a nonempty list headed by a dict is returned unchanged; a
string goes through the literal/regex/JSON cascade; any other nonempty list
headed by a tuple or list gets generic headers; everything else ends at the
warning branch with the empty list. -/
def parse_sql_results (data : PyVal) (sql_query : String) : List PyVal :=
  if !pyTruthy data then []
  else
    match data with
    | PyVal.list (first :: rest) =>
      match first with
      | PyVal.dict _ => first :: rest
      | _ => parseNonDictList (first :: rest)
    | PyVal.str s => parseStrData s sql_query
    | _ => []

/-- Python `dict.get` on a chart-data point: raises `AttributeError` on a
non-dict (modelled `.error ()`). -/
def itemGet (it : PyVal) (k : String) (d : PyVal) : Except Unit PyVal :=
  match it with
  | PyVal.dict kvs => .ok ((lookupStr k kvs).getD d)
  | _ => .error ()

/-- Python `k in item`: key membership for dicts, substring for strings,
element membership for sequences, `TypeError` otherwise. -/
def pyContains (it : PyVal) (k : String) : Except Unit Bool :=
  match it with
  | PyVal.dict kvs => .ok (kvs.any (fun kv => kv.1 == k))
  | PyVal.str s => .ok (containsSub s k)
  | PyVal.list xs => .ok (xs.any (fun v => pyEq v (PyVal.str k)))
  | PyVal.tuple xs => .ok (xs.any (fun v => pyEq v (PyVal.str k)))
  | _ => .error ()

mutual

/-- Hashability of a Python value (what `dict.fromkeys` accepts as a key). -/
def pyHashable : PyVal → Bool
  | PyVal.list _ => false
  | PyVal.dict _ => false
  | PyVal.tuple xs => pyHashableList xs
  | _ => true

/-- Hashability of every element. -/
def pyHashableList : List PyVal → Bool
  | [] => true
  | x :: xs => pyHashable x && pyHashableList xs

end

/-- First-occurrence deduplication under Python equality (`acc` holds the kept
values in reverse). -/
def dedupPyGo : List PyVal → List PyVal → List PyVal
  | [], acc => acc.reverse
  | x :: xs, acc =>
    if acc.any (fun y => pyEq y x) then dedupPyGo xs acc
    else dedupPyGo xs (x :: acc)

/-- Model of `list(dict.fromkeys(values))`: first-occurrence order, duplicates
under Python `==` removed, `TypeError` when a value is unhashable. -/
def dedupPy (l : List PyVal) : Except Unit (List PyVal) :=
  if pyHashableList l then .ok (dedupPyGo l []) else .error ()

/-- The comprehension `[item.get("group", "") for item in data_array if
"group" in item]`: conditions and lookups evaluated left to right. -/
def filteredGroupVals : List PyVal → Except Unit (List PyVal)
  | [] => .ok []
  | it :: rest => do
    let b ← pyContains it "group"
    if b then do
      let v ← itemGet it "group" (PyVal.str "")
      let vs ← filteredGroupVals rest
      pure (v :: vs)
    else filteredGroupVals rest

/-- Model of `next((item.get("value", 0) for item in data_array if
item.get(keyField) == keyVal and item.get("group") == grp), 0)`: first match
wins, absent combinations give 0. -/
def findGroupValue (items : List PyVal) (keyField : String) (keyVal : PyVal) (grp : PyVal) : Except Unit PyVal :=
  match items with
  | [] => .ok (PyVal.int 0)
  | it :: rest => do
    let c ← itemGet it keyField PyVal.none
    let g ← itemGet it "group" PyVal.none
    if pyEq c keyVal && pyEq g grp then itemGet it "value" (PyVal.int 0)
    else findGroupValue rest keyField keyVal grp

/-- The `any("group" in item for item in data_array if isinstance(item, dict))`
test: only dict items are consulted, so it cannot raise once the iteration
itself succeeded. -/
def hasGroupsOf (items : List PyVal) : Bool :=
  items.any (fun it =>
    match it with
    | PyVal.dict kvs => kvs.any (fun kv => kv.1 == "group")
    | _ => false)

/-- Hex digit for JSON `\u` escapes. -/
def hexDigitChar (n : Nat) : Char :=
  if n < 10 then Char.ofNat (48 + n) else Char.ofNat (87 + (n - 10))

/-- JSON escaping of one character as `json.dumps` does with its default
`ensure_ascii=True` (astral characters would use surrogate pairs; a single
escape is emitted here, and no claim depends on non-ASCII serialization). -/
def jsonEscapeChar (c : Char) : List Char :=
  if c == '"' then ['\\', '"']
  else if c == '\\' then ['\\', '\\']
  else if c == '\n' then ['\\', 'n']
  else if c == '\r' then ['\\', 'r']
  else if c == '\t' then ['\\', 't']
  else if c == '\x08' then ['\\', 'b']
  else if c == '\x0c' then ['\\', 'f']
  else if c.toNat < 32 || 127 < c.toNat then
    let n := c.toNat % 65536
    ['\\', 'u', hexDigitChar (n / 4096 % 16), hexDigitChar (n / 256 % 16),
     hexDigitChar (n / 16 % 16), hexDigitChar (n % 16)]
  else [c]

/-- JSON rendering of a string with quotes. -/
def jsonQuote (s : String) : String :=
  String.mk ('"' :: (s.data.flatMap jsonEscapeChar) ++ ['"'])

mutual

/-- Model of `json.dumps` with its default separators.  Ints and strings
render exactly as Python does; rationals standing for floats get a simple
decimal-or-fraction spelling (Python uses shortest round-trip `repr`; no
claim compares serialized floats, only whole structures). -/
def pyJsonDumps : PyVal → String
  | PyVal.none => "null"
  | PyVal.bool b => if b then "true" else "false"
  | PyVal.int n => toString n
  | PyVal.float q => if q.den == 1 then toString q.num ++ ".0" else toString q.num ++ "/" ++ toString q.den
  | PyVal.str s => jsonQuote s
  | PyVal.list xs => "[" ++ String.intercalate ", " (dumpsList xs) ++ "]"
  | PyVal.tuple xs => "[" ++ String.intercalate ", " (dumpsList xs) ++ "]"
  | PyVal.dict kvs => "\x7b" ++ String.intercalate ", " (dumpsPairs kvs) ++ "\x7d"

/-- Serialized elements of a JSON array. -/
def dumpsList : List PyVal → List String
  | [] => []
  | x :: xs => pyJsonDumps x :: dumpsList xs

/-- Serialized members of a JSON object. -/
def dumpsPairs : List (String × PyVal) → List String
  | [] => []
  | (k, v) :: rest => (jsonQuote k ++ ": " ++ pyJsonDumps v) :: dumpsPairs rest

end

/-- The fixed chart-type enumeration of `select_chart_type`. -/
def validChartTypes : List String :=
  ["bar", "line", "pie", "scatter", "heatmap", "radar", "gauge",
   "funnel", "sankey", "treemap", "sunburst", "boxplot", "candlestick",
   "graph", "parallel", "tree"]

/-- Delete every occurrence of a character (Python `str.replace(c, "")`). -/
def removeChar (c : Char) (s : String) : String :=
  String.mk (s.data.filter (fun d => !(d == c)))

/-- The response normalization of `select_chart_type`:
`content.strip().lower().replace(quote, "").replace(apostrophe, "")`. -/
def normalizeChartResponse (content : String) : String :=
  removeChar '\'' (removeChar '"' (lowerAscii (pyStrip content)))

/-- Model of `select_chart_type` (echarts.py lines 310-362).  The data,
question and query only shape the prompt; the observable behavior of the
completion capability is the returned content string or a raised exception,
which is the `Except Unit String` argument here. -/
def select_chart_type (completion : Except Unit String) : String :=
  match completion with
  | .error _ => "bar"
  | .ok content =>
    let chart_type := normalizeChartResponse content
    if validChartTypes.contains chart_type then chart_type else "bar"

/-- The `chart_data.get(...)` receiver check: `.get` on a non-dict raises
`AttributeError`. -/
def asDict : PyVal → Except Unit (List (String × PyVal))
  | PyVal.dict kvs => .ok kvs
  | _ => .error ()

/-- Pie branch of `generate_fallback_option` (echarts.py lines 551-570):
donut radius pair when `inner_radius > 0`, one name/value pair per point. -/
def fallbackPie (title inner_radius : PyVal) (items : List PyVal) : Except Unit PyVal := do
  let gt0 ← pyGt inner_radius (PyVal.int 0)
  let radius : PyVal :=
    if gt0 then PyVal.list [PyVal.str "60%", PyVal.str "40%"] else PyVal.str "50%"
  let pieData ← mapExc items (fun it => do
    let n ← itemGet it "category" (PyVal.str "Item")
    let v ← itemGet it "value" (PyVal.int 0)
    pure (PyVal.dict [("name", n), ("value", v)]))
  pure (PyVal.dict [
    ("title", PyVal.dict [("text", title), ("left", PyVal.str "center"), ("top", PyVal.str "5%")]),
    ("tooltip", PyVal.dict [("trigger", PyVal.str "item")]),
    ("legend", PyVal.dict [("orient", PyVal.str "vertical"), ("left", PyVal.str "left")]),
    ("series", PyVal.list [PyVal.dict [
      ("name", title),
      ("type", PyVal.str "pie"),
      ("radius", radius),
      ("data", PyVal.list pieData),
      ("emphasis", PyVal.dict [("itemStyle", PyVal.dict [
        ("shadowBlur", PyVal.int 10),
        ("shadowOffsetX", PyVal.int 0),
        ("shadowColor", PyVal.str "rgba(0, 0, 0, 0.5)")])])]])])

/-- Grouped/stacked bar branch (echarts.py lines 572-603): unique categories
and groups in first-occurrence order, one series per group with one value per
category, and a shared `stack` identifier when stacking. -/
def fallbackBarGrouped (title : PyVal) (is_stacked : Bool) (items : List PyVal) : Except Unit PyVal := do
  let catVals ← mapExc items (fun it => itemGet it "category" (PyVal.str ""))
  let categories ← dedupPy catVals
  let grpVals ← filteredGroupVals items
  let groups ← dedupPy grpVals
  let series ← mapExc groups (fun g => do
    let group_data ← mapExc categories (fun c => findGroupValue items "category" c g)
    let base := [("name", g), ("type", PyVal.str "bar"), ("data", PyVal.list group_data)]
    pure (PyVal.dict (if is_stacked then pyDictInsert base "stack" (PyVal.str "total") else base)))
  pure (PyVal.dict [
    ("title", PyVal.dict [("text", title), ("left", PyVal.str "center")]),
    ("tooltip", PyVal.dict [("trigger", PyVal.str "axis"),
      ("axisPointer", PyVal.dict [("type", PyVal.str "shadow")])]),
    ("legend", PyVal.dict [("data", PyVal.list groups)]),
    ("xAxis", PyVal.dict [("type", PyVal.str "category"), ("data", PyVal.list categories)]),
    ("yAxis", PyVal.dict [("type", PyVal.str "value")]),
    ("series", PyVal.list series)])

/-- Simple bar branch (echarts.py lines 604-614). -/
def fallbackBarSimple (title : PyVal) (items : List PyVal) : Except Unit PyVal := do
  let categories ← mapExc items.enum (fun p =>
    itemGet p.2 "category" (PyVal.str ("Item " ++ toString p.1)))
  let values ← mapExc items (fun it => itemGet it "value" (PyVal.int 0))
  pure (PyVal.dict [
    ("title", PyVal.dict [("text", title), ("left", PyVal.str "center")]),
    ("tooltip", PyVal.dict []),
    ("xAxis", PyVal.dict [("type", PyVal.str "category"), ("data", PyVal.list categories)]),
    ("yAxis", PyVal.dict [("type", PyVal.str "value")]),
    ("series", PyVal.list [PyVal.dict [("type", PyVal.str "bar"), ("data", PyVal.list values)]])])

/-- Stacked line branch (echarts.py lines 616-649): the bar cross-product
logic keyed by `time`, an unconditional shared `stack`, optional area fill
then optional smoothing. -/
def fallbackLineStacked (title : PyVal) (is_smooth show_area : Bool) (items : List PyVal) : Except Unit PyVal := do
  let timeVals ← mapExc items (fun it => itemGet it "time" (PyVal.str ""))
  let time_points ← dedupPy timeVals
  let grpVals ← filteredGroupVals items
  let groups ← dedupPy grpVals
  let series ← mapExc groups (fun g => do
    let group_data ← mapExc time_points (fun t => findGroupValue items "time" t g)
    let base := [("name", g), ("type", PyVal.str "line"),
                 ("stack", PyVal.str "total"), ("data", PyVal.list group_data)]
    let cfg := if show_area then pyDictInsert base "areaStyle" (PyVal.dict []) else base
    let cfg := if is_smooth then pyDictInsert cfg "smooth" (PyVal.bool true) else cfg
    pure (PyVal.dict cfg))
  pure (PyVal.dict [
    ("title", PyVal.dict [("text", title), ("left", PyVal.str "center")]),
    ("tooltip", PyVal.dict [("trigger", PyVal.str "axis")]),
    ("legend", PyVal.dict [("data", PyVal.list groups)]),
    ("xAxis", PyVal.dict [("type", PyVal.str "category"), ("data", PyVal.list time_points)]),
    ("yAxis", PyVal.dict [("type", PyVal.str "value")]),
    ("series", PyVal.list series)])

/-- Simple line branch (echarts.py lines 650-666): optional smoothing then
optional area fill. -/
def fallbackLineSimple (title : PyVal) (is_smooth show_area : Bool) (items : List PyVal) : Except Unit PyVal := do
  let time_points ← mapExc items.enum (fun p =>
    itemGet p.2 "time" (PyVal.str ("T" ++ toString p.1)))
  let values ← mapExc items (fun it => itemGet it "value" (PyVal.int 0))
  let base := [("type", PyVal.str "line"), ("data", PyVal.list values)]
  let cfg := if is_smooth then pyDictInsert base "smooth" (PyVal.bool true) else base
  let cfg := if show_area then pyDictInsert cfg "areaStyle" (PyVal.dict []) else cfg
  pure (PyVal.dict [
    ("title", PyVal.dict [("text", title), ("left", PyVal.str "center")]),
    ("tooltip", PyVal.dict [("trigger", PyVal.str "axis")]),
    ("xAxis", PyVal.dict [("type", PyVal.str "category"), ("data", PyVal.list time_points)]),
    ("yAxis", PyVal.dict [("type", PyVal.str "value")]),
    ("series", PyVal.list [PyVal.dict cfg])])

/-- Heatmap branch (echarts.py lines 667-702): `[x, y, value]` triples and a
`visualMap` whose `max` ranges over the values (100 when there are none). -/
def fallbackHeatmap (title : PyVal) (items : List PyVal) : Except Unit PyVal := do
  let triples ← mapExc items (fun it => do
    let x ← itemGet it "x" (PyVal.int 0)
    let y ← itemGet it "y" (PyVal.int 0)
    let v ← itemGet it "value" (PyVal.int 0)
    pure (x, y, v))
  let heatmap_data := triples.map (fun t => PyVal.list [t.1, t.2.1, t.2.2])
  let mx ← if heatmap_data.isEmpty then pure (PyVal.int 100)
           else pyMax (triples.map (fun t => t.2.2))
  pure (PyVal.dict [
    ("title", PyVal.dict [("text", title), ("left", PyVal.str "center")]),
    ("tooltip", PyVal.dict [("position", PyVal.str "top")]),
    ("grid", PyVal.dict [("height", PyVal.str "70%"), ("top", PyVal.str "10%")]),
    ("xAxis", PyVal.dict [("type", PyVal.str "category")]),
    ("yAxis", PyVal.dict [("type", PyVal.str "category")]),
    ("visualMap", PyVal.dict [
      ("min", PyVal.int 0),
      ("max", mx),
      ("calculable", PyVal.bool true),
      ("orient", PyVal.str "horizontal"),
      ("left", PyVal.str "center"),
      ("bottom", PyVal.str "5%")]),
    ("series", PyVal.list [PyVal.dict [
      ("name", title),
      ("type", PyVal.str "heatmap"),
      ("data", PyVal.list heatmap_data),
      ("label", PyVal.dict [("show", PyVal.bool true)]),
      ("emphasis", PyVal.dict [("itemStyle", PyVal.dict [
        ("shadowBlur", PyVal.int 10),
        ("shadowColor", PyVal.str "rgba(0, 0, 0, 0.5)")])])]])])

/-- Generic branch (echarts.py lines 703-709): one series of the requested
type over the raw value list. -/
def fallbackGeneric (chart_type : String) (title : PyVal) (items : List PyVal) : Except Unit PyVal := do
  let values ← mapExc items (fun it => itemGet it "value" (PyVal.int 0))
  pure (PyVal.dict [
    ("title", PyVal.dict [("text", title), ("left", PyVal.str "center")]),
    ("tooltip", PyVal.dict []),
    ("series", PyVal.list [PyVal.dict [
      ("type", PyVal.str chart_type),
      ("data", PyVal.list values)]])])

/-- Model of `generate_fallback_option` of echarts.py (lines 535-709), up to
the final `json.dumps`: read the chart-data fields, iterate the data array
once (the `has_groups` generator), then dispatch on the chart type and the
grouping flags exactly as the source's if-chain does. -/
def generate_fallback_obj (chart_type : String) (chart_data : PyVal) : Except Unit PyVal := do
  let cd ← asDict chart_data
  let data_array := (lookupStr "data" cd).getD (PyVal.list [])
  let title := (lookupStr "title" cd).getD (PyVal.str "Chart")
  let is_stacked := pyTruthy ((lookupStr "stack" cd).getD (PyVal.bool false))
  let is_grouped := pyTruthy ((lookupStr "group" cd).getD (PyVal.bool false))
  let inner_radius := (lookupStr "innerRadius" cd).getD (PyVal.int 0)
  let is_smooth := pyTruthy ((lookupStr "smooth" cd).getD (PyVal.bool false))
  let show_area := pyTruthy ((lookupStr "showArea" cd).getD (PyVal.bool false))
  let items ← pyIterate data_array
  let has_groups := hasGroupsOf items
  if chart_type == "pie" then fallbackPie title inner_radius items
  else if chart_type == "bar" then
    if has_groups && (is_stacked || is_grouped) then fallbackBarGrouped title is_stacked items
    else fallbackBarSimple title items
  else if chart_type == "line" then
    if has_groups && is_stacked then fallbackLineStacked title is_smooth show_area items
    else fallbackLineSimple title is_smooth show_area items
  else if chart_type == "heatmap" then fallbackHeatmap title items
  else fallbackGeneric chart_type title items

/-- Model of `generate_fallback_option` of echarts.py: the serialized JSON
string, or `.error ()` when the Python code would raise. -/
def generate_fallback_option (chart_type : String) (chart_data : PyVal) : Except Unit String :=
  (generate_fallback_obj chart_type chart_data).map pyJsonDumps

namespace EchartsGenerator

/-- Pie branch of the older module (echarts_generator.py lines 321-339): like
the newer pie branch but with a fixed `50%` radius and the iteration done
inside the branch. -/
def fallbackPie (title data_array : PyVal) : Except Unit PyVal := do
  let items ← pyIterate data_array
  let pieData ← mapExc items (fun it => do
    let n ← itemGet it "category" (PyVal.str "Item")
    let v ← itemGet it "value" (PyVal.int 0)
    pure (PyVal.dict [("name", n), ("value", v)]))
  pure (PyVal.dict [
    ("title", PyVal.dict [("text", title), ("left", PyVal.str "center"), ("top", PyVal.str "5%")]),
    ("tooltip", PyVal.dict [("trigger", PyVal.str "item")]),
    ("legend", PyVal.dict [("orient", PyVal.str "vertical"), ("left", PyVal.str "left")]),
    ("series", PyVal.list [PyVal.dict [
      ("name", title),
      ("type", PyVal.str "pie"),
      ("radius", PyVal.str "50%"),
      ("data", PyVal.list pieData),
      ("emphasis", PyVal.dict [("itemStyle", PyVal.dict [
        ("shadowBlur", PyVal.int 10),
        ("shadowOffsetX", PyVal.int 0),
        ("shadowColor", PyVal.str "rgba(0, 0, 0, 0.5)")])])]])])

/-- Bar branch of the older module (echarts_generator.py lines 340-349):
simple bars only. -/
def fallbackBarSimple (title data_array : PyVal) : Except Unit PyVal := do
  let items ← pyIterate data_array
  let categories ← mapExc items.enum (fun p =>
    itemGet p.2 "category" (PyVal.str ("Item " ++ toString p.1)))
  let values ← mapExc items (fun it => itemGet it "value" (PyVal.int 0))
  pure (PyVal.dict [
    ("title", PyVal.dict [("text", title), ("left", PyVal.str "center")]),
    ("tooltip", PyVal.dict []),
    ("xAxis", PyVal.dict [("type", PyVal.str "category"), ("data", PyVal.list categories)]),
    ("yAxis", PyVal.dict [("type", PyVal.str "value")]),
    ("series", PyVal.list [PyVal.dict [("type", PyVal.str "bar"), ("data", PyVal.list values)]])])

/-- Heatmap branch of the older module (echarts_generator.py lines 350-385):
textually identical to the newer module's heatmap branch. -/
def fallbackHeatmap (title data_array : PyVal) : Except Unit PyVal := do
  let items ← pyIterate data_array
  let triples ← mapExc items (fun it => do
    let x ← itemGet it "x" (PyVal.int 0)
    let y ← itemGet it "y" (PyVal.int 0)
    let v ← itemGet it "value" (PyVal.int 0)
    pure (x, y, v))
  let heatmap_data := triples.map (fun t => PyVal.list [t.1, t.2.1, t.2.2])
  let mx ← if heatmap_data.isEmpty then pure (PyVal.int 100)
           else pyMax (triples.map (fun t => t.2.2))
  pure (PyVal.dict [
    ("title", PyVal.dict [("text", title), ("left", PyVal.str "center")]),
    ("tooltip", PyVal.dict [("position", PyVal.str "top")]),
    ("grid", PyVal.dict [("height", PyVal.str "70%"), ("top", PyVal.str "10%")]),
    ("xAxis", PyVal.dict [("type", PyVal.str "category")]),
    ("yAxis", PyVal.dict [("type", PyVal.str "category")]),
    ("visualMap", PyVal.dict [
      ("min", PyVal.int 0),
      ("max", mx),
      ("calculable", PyVal.bool true),
      ("orient", PyVal.str "horizontal"),
      ("left", PyVal.str "center"),
      ("bottom", PyVal.str "5%")]),
    ("series", PyVal.list [PyVal.dict [
      ("name", title),
      ("type", PyVal.str "heatmap"),
      ("data", PyVal.list heatmap_data),
      ("label", PyVal.dict [("show", PyVal.bool true)]),
      ("emphasis", PyVal.dict [("itemStyle", PyVal.dict [
        ("shadowBlur", PyVal.int 10),
        ("shadowColor", PyVal.str "rgba(0, 0, 0, 0.5)")])])]])])

/-- Generic branch of the older module (echarts_generator.py lines 386-392):
textually identical to the newer module's generic branch. -/
def fallbackGeneric (chart_type : String) (title data_array : PyVal) : Except Unit PyVal := do
  let items ← pyIterate data_array
  let values ← mapExc items (fun it => itemGet it "value" (PyVal.int 0))
  pure (PyVal.dict [
    ("title", PyVal.dict [("text", title), ("left", PyVal.str "center")]),
    ("tooltip", PyVal.dict []),
    ("series", PyVal.list [PyVal.dict [
      ("type", PyVal.str chart_type),
      ("data", PyVal.list values)]])])

/-- Model of `generate_fallback_option` of the older module
echarts_generator.py (lines 314-392), up to the final `json.dumps`: only pie,
simple bar, heatmap and the generic branch exist, each iterating
`data_array` itself. -/
def generate_fallback_obj (chart_type : String) (chart_data : PyVal) : Except Unit PyVal := do
  let cd ← asDict chart_data
  let data_array := (lookupStr "data" cd).getD (PyVal.list [])
  let title := (lookupStr "title" cd).getD (PyVal.str "Chart")
  if chart_type == "pie" then fallbackPie title data_array
  else if chart_type == "bar" then fallbackBarSimple title data_array
  else if chart_type == "heatmap" then fallbackHeatmap title data_array
  else fallbackGeneric chart_type title data_array

/-- Model of the older module's `generate_fallback_option` as the serialized
JSON string. -/
def generate_fallback_option (chart_type : String) (chart_data : PyVal) : Except Unit String :=
  (generate_fallback_obj chart_type chart_data).map pyJsonDumps

end EchartsGenerator

/-- Key list of a dict value (empty for non-dicts). -/
def dictKeys : PyVal → List String
  | PyVal.dict kvs => kvs.map Prod.fst
  | _ => []

/-- Test for a dict value. -/
def isDictVal : PyVal → Bool
  | PyVal.dict _ => true
  | _ => false

/-- Uniform-keys invariant of a result set: every mapping in the list carries
the same key list, in the same order, as every other mapping. -/
def uniformKeys (l : List PyVal) : Bool :=
  match l.filter isDictVal with
  | [] => true
  | d :: ds => ds.all (fun d2 => dictKeys d2 == dictKeys d)

/-- First-occurrence key deduplication, as performed by repeated Python dict
insertion of the same key sequence. -/
def keyDedupFold (acc : List String) : List String → List String
  | [] => acc
  | k :: ks => keyDedupFold (if acc.any (fun a => a == k) then acc else acc ++ [k]) ks

/-- Scalar values in the sense of the data model: numbers (with booleans) and
strings. -/
def isScalar : PyVal → Bool
  | PyVal.bool _ => true
  | PyVal.int _ => true
  | PyVal.float _ => true
  | PyVal.str _ => true
  | _ => false

/-- A chart-data point carrying only scalar fields. -/
def scalarPoint : PyVal → Bool
  | PyVal.dict fields => fields.all (fun kv => isScalar kv.2)
  | _ => false

/-- The field `f` of a chart-data point with default `d` (total version of
`item.get`, usable once the point is known to be a dict). -/
def pointField (f : String) (d : PyVal) : PyVal → PyVal
  | PyVal.dict fields => (lookupStr f fields).getD d
  | _ => d

/-- Well-formed `ChartData` in the sense of claim C9: a mapping whose `data`,
when present, is a sequence of point-mappings with scalar fields, and whose
`innerRadius`, when present, is numeric (an inner-radius fraction). -/
def wellFormedChartData : PyVal → Bool
  | PyVal.dict kvs =>
    (match lookupStr "data" kvs with
     | some (PyVal.list items) => items.all scalarPoint
     | some _ => false
     | Option.none => true) &&
    (match lookupStr "innerRadius" kvs with
     | some v => (pyNum v).isSome
     | Option.none => true)
  | _ => false

/-- The `value` fields of the data points (with the code's default 0). -/
def pointValues : PyVal → List PyVal
  | PyVal.dict kvs =>
    (match lookupStr "data" kvs with
     | some (PyVal.list items) => items.map (pointField "value" (PyVal.int 0))
     | _ => [])
  | _ => []

/-- Mutual comparability of the heatmap point values under Python `max`:
all numeric or all strings. -/
def heatmapValuesComparable (cd : PyVal) : Bool :=
  (pointValues cd).all (fun v => (pyNum v).isSome) ||
  (pointValues cd).all isStrVal

/-- A completion-capability outcome that claim C6 calls invalid: a raised
exception, or a response whose trimmed, lowercased, quote-stripped form is
outside the enumeration. -/
def invalidChartResponse : Except Unit String → Bool
  | .ok s => !(validChartTypes.contains (normalizeChartResponse s))
  | .error _ => true

/-- The value resolved for one (axis value, group) combination by exact
match, defaulting to 0 when the combination is absent — the pure meaning of
the `next(...)` lookup in the grouped chart branches. -/
def resolvedValue (items : List PyVal) (keyField : String) (c g : PyVal) : PyVal :=
  match items.find? (fun it =>
    pyEq (pointField keyField PyVal.none it) c && pyEq (pointField "group" PyVal.none it) g) with
  | some it => pointField "value" (PyVal.int 0) it
  | Option.none => PyVal.int 0

/-- Points suitable for the grouped chart branches: dicts carrying the axis
field and a `group` field, all field values scalar. -/
def groupedPoints (axisField : String) (items : List PyVal) : Bool :=
  items.all (fun it =>
    match it with
    | PyVal.dict fields =>
      fields.any (fun kv => kv.1 == axisField) &&
      fields.any (fun kv => kv.1 == "group") &&
      fields.all (fun kv => isScalar kv.2)
    | _ => false)

/-! Generic lemmas about the embedding's combinators. -/

theorem foldr_if_eq_filter_map {α β : Type} (p : α → Bool) (f : α → β) (l : List α) :
    l.foldr (fun x acc => if p x then f x :: acc else acc) [] = (l.filter p).map f := by
  induction l with
  | nil => rfl
  | cons x xs ih =>
    by_cases h : p x = true
    · simp [List.filter_cons, h, ih]
    · simp only [Bool.not_eq_true] at h
      simp [List.filter_cons, h, ih]

theorem mapExc_eq_map {α β : Type} {l : List α} {f : α → Except Unit β} {g : α → β}
    (h : ∀ x ∈ l, f x = .ok (g x)) : mapExc l f = .ok (l.map g) := by
  induction l with
  | nil => rfl
  | cons x xs ih =>
    have hx := h x (by simp)
    have hrest : mapExc xs f = .ok (xs.map g) := ih (fun y hy => h y (by simp [hy]))
    simp [mapExc, hx, hrest]
    rfl

theorem mapExc_ok {α β : Type} {l : List α} {f : α → Except Unit β} {P : β → Prop}
    (h : ∀ x ∈ l, ∃ y, f x = .ok y ∧ P y) :
    ∃ ys, mapExc l f = .ok ys ∧ ∀ y ∈ ys, P y := by
  induction l with
  | nil => exact ⟨[], rfl, by simp⟩
  | cons x xs ih =>
    obtain ⟨y, hy, hPy⟩ := h x (by simp)
    obtain ⟨ys, hys, hPys⟩ := ih (fun z hz => h z (by simp [hz]))
    refine ⟨y :: ys, ?_, ?_⟩
    · simp [mapExc, hy, hys]
      rfl
    · intro z hz
      rcases List.mem_cons.mp hz with h1 | h2
      · exact h1 ▸ hPy
      · exact hPys z h2

theorem keys_pyDictInsert (d : List (String × PyVal)) (k : String) (v : PyVal) :
    (pyDictInsert d k v).map Prod.fst =
      if d.any (fun p => p.1 == k) then d.map Prod.fst else d.map Prod.fst ++ [k] := by
  unfold pyDictInsert
  by_cases h : d.any (fun p => p.1 == k) = true
  · simp only [h, if_true]
    rw [List.map_map]
    apply List.map_congr_left
    intro p _
    by_cases hp : p.1 == k
    · have : p.1 = k := by simpa using hp
      simp [Function.comp, hp, this]
    · simp [Function.comp, hp]
  · simp only [Bool.not_eq_true] at h
    simp [h]

theorem keys_pyDictFold (pairs : List (String × PyVal)) :
    ∀ d : List (String × PyVal),
      ((pairs.foldl (fun d p => pyDictInsert d p.1 p.2) d).map Prod.fst) =
        keyDedupFold (d.map Prod.fst) (pairs.map Prod.fst) := by
  induction pairs with
  | nil => intro d; rfl
  | cons p rest ih =>
    intro d
    rw [List.foldl_cons, List.map_cons, keyDedupFold, ih]
    congr 1
    rw [keys_pyDictInsert]
    have : d.any (fun q => q.1 == p.1) = (d.map Prod.fst).any (fun a => a == p.1) := by
      induction d with
      | nil => rfl
      | cons q qs ihq => simp [ihq]
    rw [this]

theorem keys_pyDictOfPairs (pairs : List (String × PyVal)) :
    (pyDictOfPairs pairs).map Prod.fst = keyDedupFold [] (pairs.map Prod.fst) := by
  unfold pyDictOfPairs
  exact keys_pyDictFold pairs []

theorem uniformKeys_const {l : List PyVal} {K : List String}
    (h : ∀ x ∈ l, isDictVal x = true ∧ dictKeys x = K) : uniformKeys l = true := by
  have hf : l.filter isDictVal = l := List.filter_eq_self.mpr (fun x hx => (h x hx).1)
  unfold uniformKeys
  rw [hf]
  cases l with
  | nil => rfl
  | cons d ds =>
    simp only [List.all_eq_true]
    intro d2 hd2
    have h1 := (h d (by simp)).2
    have h2 := (h d2 (by simp [hd2])).2
    rw [h1, h2]
    exact beq_self_eq_true K

theorem rowsToDicts_eq_filter_map (rows : List (List PyVal)) (sql_query : String) :
    rowsToDicts rows sql_query =
      (((chooseHeaders rows sql_query).2.filter
          (fun row => row.length == (chooseHeaders rows sql_query).1.length)).map
        (fun row => PyVal.dict (pyDictOfPairs ((chooseHeaders rows sql_query).1.zip row)))) := by
  unfold rowsToDicts
  exact foldr_if_eq_filter_map _ _ _

theorem chooseHeaders_sql {r0 : List PyVal} {rest : List (List PyVal)} {sql_query : String}
    {hs : List String} (hne : sql_query ≠ "")
    (hex : extract_column_names_from_sql sql_query = hs)
    (h1 : hs.isEmpty = false) (h2 : hs.length = r0.length) :
    chooseHeaders (r0 :: rest) sql_query = (hs, r0 :: rest) := by
  have hb : (sql_query != "") = true := by simpa using hne
  unfold chooseHeaders
  rw [hb, if_pos rfl, hex]
  show (if (!hs.isEmpty && hs.length == r0.length) = true then (hs, r0 :: rest)
        else
          if (decide ((r0 :: rest).length > 1) && r0.all isStrVal) = true then
            (List.map strValOf r0, rest)
          else (genericHeaders r0.length, r0 :: rest)) = (hs, r0 :: rest)
  rw [h1, h2]
  simp

theorem lookupStr_some_mem {k : String} {kvs : List (String × PyVal)} {v : PyVal}
    (h : lookupStr k kvs = some v) : ∃ p ∈ kvs, p.2 = v := by
  induction kvs with
  | nil => simp [lookupStr] at h
  | cons p rest ih =>
    rw [lookupStr] at h
    by_cases hk : p.1 == k
    · simp [hk] at h
      exact ⟨p, by simp, h⟩
    · simp [hk] at h
      obtain ⟨q, hq, hqv⟩ := ih h
      exact ⟨q, by simp [hq], hqv⟩

theorem scalarPoint_isDict {it : PyVal} (h : scalarPoint it = true) : isDictVal it = true := by
  cases it <;> simp_all [scalarPoint, isDictVal]

theorem isScalar_pointField {it : PyVal} {f : String} {d : PyVal}
    (hit : scalarPoint it = true) (hd : isScalar d = true) :
    isScalar (pointField f d it) = true := by
  cases it with
  | dict fields =>
    rw [pointField]
    cases hl : lookupStr f fields with
    | none => simpa using hd
    | some v =>
      obtain ⟨p, hp, hpv⟩ := lookupStr_some_mem hl
      rw [scalarPoint, List.all_eq_true] at hit
      simpa using hpv ▸ hit p hp
  | none => simp [scalarPoint] at hit
  | bool b => simp [scalarPoint] at hit
  | int n => simp [scalarPoint] at hit
  | float q => simp [scalarPoint] at hit
  | str s => simp [scalarPoint] at hit
  | list l => simp [scalarPoint] at hit
  | tuple l => simp [scalarPoint] at hit

theorem pyHashable_of_scalar {v : PyVal} (h : isScalar v = true) : pyHashable v = true := by
  cases v <;> simp_all [isScalar, pyHashable]

theorem dedupPy_of_scalars {l : List PyVal} (h : ∀ v ∈ l, isScalar v = true) :
    dedupPy l = .ok (dedupPyGo l []) := by
  unfold dedupPy
  rw [if_pos]
  have : ∀ m : List PyVal, (∀ v ∈ m, isScalar v = true) → pyHashableList m = true := by
    intro m
    induction m with
    | nil => intro _; rfl
    | cons x xs ih =>
      intro hm
      rw [pyHashableList, Bool.and_eq_true]
      exact ⟨pyHashable_of_scalar (hm x (by simp)), ih (fun v hv => hm v (by simp [hv]))⟩
  exact this l h

theorem itemGet_dict {fields : List (String × PyVal)} {k : String} {d : PyVal} :
    itemGet (PyVal.dict fields) k d = .ok (pointField k d (PyVal.dict fields)) := rfl

theorem mapExc_itemGet {items : List PyVal} {k : String} {d : PyVal}
    (h : ∀ it ∈ items, isDictVal it = true) :
    mapExc items (fun it => itemGet it k d) = .ok (items.map (pointField k d)) := by
  apply mapExc_eq_map
  intro it hit
  have := h it hit
  cases it <;> simp_all [isDictVal, itemGet, pointField]

theorem mapExc_ok2 {α β : Type} {l : List α} {f : α → Except Unit β}
    (h : ∀ x ∈ l, ∃ y, f x = .ok y) : ∃ ys, mapExc l f = .ok ys := by
  obtain ⟨ys, hys, _⟩ := mapExc_ok (P := fun _ => True)
    (fun x hx => by
      obtain ⟨y, hy⟩ := h x hx
      exact ⟨y, hy, trivial⟩)
  exact ⟨ys, hys⟩

theorem exbind_ok {α β : Type} (a : α) (f : α → Except Unit β) :
    (Except.ok a >>= f : Except Unit β) = f a := rfl

theorem groupedPoints_cons {axisField : String} {it : PyVal} {rest : List PyVal}
    (h : groupedPoints axisField (it :: rest) = true) :
    (∃ fields, it = PyVal.dict fields ∧
      fields.any (fun kv => kv.1 == axisField) = true ∧
      fields.any (fun kv => kv.1 == "group") = true ∧
      fields.all (fun kv => isScalar kv.2) = true) ∧
    groupedPoints axisField rest = true := by
  rw [groupedPoints, List.all_cons, Bool.and_eq_true] at h
  obtain ⟨h2, hrest⟩ := h
  refine ⟨?_, hrest⟩
  cases it with
  | dict fields =>
    have h3 : (((fields.any fun kv => kv.1 == axisField) &&
        (fields.any fun kv => kv.1 == "group")) &&
        (fields.all fun kv => isScalar kv.2)) = true := h2
    rw [Bool.and_eq_true, Bool.and_eq_true] at h3
    exact ⟨fields, rfl, h3.1.1, h3.1.2, h3.2⟩
  | none => exact absurd h2 (by simp)
  | bool b => exact absurd h2 (by simp)
  | int n => exact absurd h2 (by simp)
  | float q => exact absurd h2 (by simp)
  | str s => exact absurd h2 (by simp)
  | list l => exact absurd h2 (by simp)
  | tuple l => exact absurd h2 (by simp)

theorem groupedPoints_scalarPoint {axisField : String} {items : List PyVal}
    (h : groupedPoints axisField items = true) : ∀ it ∈ items, scalarPoint it = true := by
  induction items with
  | nil => simp
  | cons it rest ih =>
    obtain ⟨⟨fields, rfl, _, _, hs⟩, hrest⟩ := groupedPoints_cons h
    intro x hx
    rcases List.mem_cons.mp hx with rfl | hx2
    · simpa [scalarPoint] using hs
    · exact ih hrest x hx2

theorem groupedPoints_dicts {axisField : String} {items : List PyVal}
    (h : groupedPoints axisField items = true) : ∀ it ∈ items, isDictVal it = true :=
  fun it hit => scalarPoint_isDict (groupedPoints_scalarPoint h it hit)

theorem filteredGroupVals_eq {axisField : String} {items : List PyVal}
    (h : groupedPoints axisField items = true) :
    filteredGroupVals items = .ok (items.map (pointField "group" (PyVal.str ""))) := by
  induction items with
  | nil => rfl
  | cons it rest ih =>
    obtain ⟨⟨fields, rfl, _, hg, _⟩, hrest⟩ := groupedPoints_cons h
    have hpc : pyContains (PyVal.dict fields) "group" = .ok true := by
      simp [pyContains, hg]
    rw [filteredGroupVals, hpc, exbind_ok, if_pos rfl, itemGet_dict, exbind_ok,
        ih hrest, exbind_ok]
    rfl

theorem findGroupValue_eq {kf : String} {c g : PyVal} {items : List PyVal}
    (h : ∀ it ∈ items, isDictVal it = true) :
    findGroupValue items kf c g = .ok (resolvedValue items kf c g) := by
  induction items with
  | nil => rfl
  | cons it rest ih =>
    have hd := h it (by simp)
    have hrest := ih (fun x hx => h x (by simp [hx]))
    cases it with
    | dict fields =>
      rw [findGroupValue, itemGet_dict, exbind_ok, itemGet_dict, exbind_ok]
      by_cases hm : (pyEq (pointField kf PyVal.none (PyVal.dict fields)) c &&
          pyEq (pointField "group" PyVal.none (PyVal.dict fields)) g) = true
      · rw [if_pos hm, itemGet_dict]
        unfold resolvedValue
        rw [List.find?]
        simp only [hm]
      · rw [if_neg hm, hrest]
        unfold resolvedValue
        rw [List.find?]
        simp only [Bool.not_eq_true] at hm
        simp only [hm]
    | none => exact absurd hd (by simp [isDictVal])
    | bool b => exact absurd hd (by simp [isDictVal])
    | int n => exact absurd hd (by simp [isDictVal])
    | float q => exact absurd hd (by simp [isDictVal])
    | str s => exact absurd hd (by simp [isDictVal])
    | list l => exact absurd hd (by simp [isDictVal])
    | tuple l => exact absurd hd (by simp [isDictVal])

theorem pyIterate_list (xs : List PyVal) : pyIterate (PyVal.list xs) = .ok xs := rfl

theorem hasGroupsOf_grouped {axisField : String} {items : List PyVal}
    (h : groupedPoints axisField items = true) (hne : items ≠ []) :
    hasGroupsOf items = true := by
  cases items with
  | nil => exact absurd rfl hne
  | cons it rest =>
    obtain ⟨⟨fields, rfl, _, hg, _⟩, _⟩ := groupedPoints_cons h
    rw [hasGroupsOf, List.any_cons]
    simp [hg]

theorem generate_fallback_obj_bar_grouped {kvs : List (String × PyVal)} {items : List PyVal}
    (hdata : lookupStr "data" kvs = some (PyVal.list items))
    (hgrp : (hasGroupsOf items &&
      (pyTruthy ((lookupStr "stack" kvs).getD (PyVal.bool false)) ||
       pyTruthy ((lookupStr "group" kvs).getD (PyVal.bool false)))) = true) :
    generate_fallback_obj "bar" (PyVal.dict kvs) =
      fallbackBarGrouped ((lookupStr "title" kvs).getD (PyVal.str "Chart"))
        (pyTruthy ((lookupStr "stack" kvs).getD (PyVal.bool false))) items := by
  unfold generate_fallback_obj
  rw [show asDict (PyVal.dict kvs) = Except.ok kvs from rfl, exbind_ok]
  simp only [hdata, Option.getD_some, pyIterate_list, exbind_ok]
  rw [if_neg (by decide), if_pos (by decide), if_pos hgrp]

theorem generate_fallback_obj_line_stacked {kvs : List (String × PyVal)} {items : List PyVal}
    (hdata : lookupStr "data" kvs = some (PyVal.list items))
    (hgrp : (hasGroupsOf items &&
      pyTruthy ((lookupStr "stack" kvs).getD (PyVal.bool false))) = true) :
    generate_fallback_obj "line" (PyVal.dict kvs) =
      fallbackLineStacked ((lookupStr "title" kvs).getD (PyVal.str "Chart"))
        (pyTruthy ((lookupStr "smooth" kvs).getD (PyVal.bool false)))
        (pyTruthy ((lookupStr "showArea" kvs).getD (PyVal.bool false))) items := by
  unfold generate_fallback_obj
  rw [show asDict (PyVal.dict kvs) = Except.ok kvs from rfl, exbind_ok]
  simp only [hdata, Option.getD_some, pyIterate_list, exbind_ok]
  rw [if_neg (by decide), if_neg (by decide), if_pos (by decide), if_pos hgrp]

theorem barSeries_eq {items : List PyVal} (hdicts : ∀ it ∈ items, isDictVal it = true)
    (st : Bool) (gs cs : List PyVal) :
    mapExc gs (fun g => do
      let group_data ← mapExc cs (fun c => findGroupValue items "category" c g)
      let base := [("name", g), ("type", PyVal.str "bar"), ("data", PyVal.list group_data)]
      pure (PyVal.dict (if st then pyDictInsert base "stack" (PyVal.str "total") else base))) =
    .ok (gs.map (fun g => PyVal.dict (
      [("name", g), ("type", PyVal.str "bar"),
       ("data", PyVal.list (cs.map (fun c => resolvedValue items "category" c g)))] ++
      (if st then [("stack", PyVal.str "total")] else [])))) := by
  apply mapExc_eq_map
  intro g hg
  rw [mapExc_eq_map (fun c _ => findGroupValue_eq hdicts), exbind_ok]
  cases st
  · rfl
  · rfl

theorem lineSeries_eq {items : List PyVal} (hdicts : ∀ it ∈ items, isDictVal it = true)
    (sm sa : Bool) (gs ts : List PyVal) :
    mapExc gs (fun g => do
      let group_data ← mapExc ts (fun t => findGroupValue items "time" t g)
      let base := [("name", g), ("type", PyVal.str "line"),
                   ("stack", PyVal.str "total"), ("data", PyVal.list group_data)]
      let cfg := if sa then pyDictInsert base "areaStyle" (PyVal.dict []) else base
      let cfg := if sm then pyDictInsert cfg "smooth" (PyVal.bool true) else cfg
      pure (PyVal.dict cfg)) =
    .ok (gs.map (fun g => PyVal.dict (
      [("name", g), ("type", PyVal.str "line"), ("stack", PyVal.str "total"),
       ("data", PyVal.list (ts.map (fun t => resolvedValue items "time" t g)))] ++
      (if sa then [("areaStyle", PyVal.dict [])] else []) ++
      (if sm then [("smooth", PyVal.bool true)] else [])))) := by
  apply mapExc_eq_map
  intro g hg
  rw [mapExc_eq_map (fun t _ => findGroupValue_eq hdicts), exbind_ok]
  cases sa <;> cases sm <;> rfl

theorem map_pointField_scalar {items : List PyVal} {f : String} {d : PyVal}
    (hsp : ∀ it ∈ items, scalarPoint it = true) (hd : isScalar d = true) :
    ∀ v ∈ items.map (pointField f d), isScalar v = true := by
  intro v hv
  rw [List.mem_map] at hv
  obtain ⟨it, hit, rfl⟩ := hv
  exact isScalar_pointField (hsp it hit) hd

theorem fallbackBarGrouped_eq {title : PyVal} {st : Bool} {items : List PyVal}
    (h : groupedPoints "category" items = true) :
    fallbackBarGrouped title st items = .ok (PyVal.dict [
      ("title", PyVal.dict [("text", title), ("left", PyVal.str "center")]),
      ("tooltip", PyVal.dict [("trigger", PyVal.str "axis"),
        ("axisPointer", PyVal.dict [("type", PyVal.str "shadow")])]),
      ("legend", PyVal.dict [("data",
        PyVal.list (dedupPyGo (items.map (pointField "group" (PyVal.str ""))) []))]),
      ("xAxis", PyVal.dict [("type", PyVal.str "category"), ("data",
        PyVal.list (dedupPyGo (items.map (pointField "category" (PyVal.str ""))) []))]),
      ("yAxis", PyVal.dict [("type", PyVal.str "value")]),
      ("series", PyVal.list
        ((dedupPyGo (items.map (pointField "group" (PyVal.str ""))) []).map (fun g =>
          PyVal.dict (
            [("name", g), ("type", PyVal.str "bar"),
             ("data", PyVal.list
               ((dedupPyGo (items.map (pointField "category" (PyVal.str ""))) []).map
                 (fun c => resolvedValue items "category" c g)))] ++
            (if st then [("stack", PyVal.str "total")] else [])))))]) := by
  have hdicts := groupedPoints_dicts h
  have hsp := groupedPoints_scalarPoint h
  have hsc1 : ∀ v ∈ items.map (pointField "category" (PyVal.str "")), isScalar v = true :=
    map_pointField_scalar hsp rfl
  have hsc2 : ∀ v ∈ items.map (pointField "group" (PyVal.str "")), isScalar v = true :=
    map_pointField_scalar hsp rfl
  rw [fallbackBarGrouped, mapExc_itemGet hdicts, exbind_ok,
      dedupPy_of_scalars hsc1, exbind_ok,
      filteredGroupVals_eq h, exbind_ok,
      dedupPy_of_scalars hsc2, exbind_ok,
      barSeries_eq hdicts, exbind_ok]
  rfl

theorem fallbackLineStacked_eq {title : PyVal} {sm sa : Bool} {items : List PyVal}
    (h : groupedPoints "time" items = true) :
    fallbackLineStacked title sm sa items = .ok (PyVal.dict [
      ("title", PyVal.dict [("text", title), ("left", PyVal.str "center")]),
      ("tooltip", PyVal.dict [("trigger", PyVal.str "axis")]),
      ("legend", PyVal.dict [("data",
        PyVal.list (dedupPyGo (items.map (pointField "group" (PyVal.str ""))) []))]),
      ("xAxis", PyVal.dict [("type", PyVal.str "category"), ("data",
        PyVal.list (dedupPyGo (items.map (pointField "time" (PyVal.str ""))) []))]),
      ("yAxis", PyVal.dict [("type", PyVal.str "value")]),
      ("series", PyVal.list
        ((dedupPyGo (items.map (pointField "group" (PyVal.str ""))) []).map (fun g =>
          PyVal.dict (
            [("name", g), ("type", PyVal.str "line"), ("stack", PyVal.str "total"),
             ("data", PyVal.list
               ((dedupPyGo (items.map (pointField "time" (PyVal.str ""))) []).map
                 (fun t => resolvedValue items "time" t g)))] ++
            (if sa then [("areaStyle", PyVal.dict [])] else []) ++
            (if sm then [("smooth", PyVal.bool true)] else [])))))]) := by
  have hdicts := groupedPoints_dicts h
  have hsp := groupedPoints_scalarPoint h
  have hsc1 : ∀ v ∈ items.map (pointField "time" (PyVal.str "")), isScalar v = true :=
    map_pointField_scalar hsp rfl
  have hsc2 : ∀ v ∈ items.map (pointField "group" (PyVal.str "")), isScalar v = true :=
    map_pointField_scalar hsp rfl
  rw [fallbackLineStacked, mapExc_itemGet hdicts, exbind_ok,
      dedupPy_of_scalars hsc1, exbind_ok,
      filteredGroupVals_eq h, exbind_ok,
      dedupPy_of_scalars hsc2, exbind_ok,
      lineSeries_eq hdicts, exbind_ok]
  rfl

theorem isDictVal_shape {it : PyVal} (h : isDictVal it = true) :
    ∃ fields, it = PyVal.dict fields := by
  cases it <;> simp_all [isDictVal]

theorem isScalar_num_or_str {v : PyVal} (h : isScalar v = true) :
    (pyNum v).isSome = true ∨ isStrVal v = true := by
  cases v <;> simp_all [isScalar, pyNum, isStrVal]

theorem pyLt_num_ok {a b : PyVal} (ha : (pyNum a).isSome = true) (hb : (pyNum b).isSome = true) :
    ∃ r, pyLt a b = .ok r := by
  cases a <;> cases b <;> (try exact ⟨_, rfl⟩) <;>
    (exfalso; revert ha hb; simp [pyNum])

theorem pyLt_str_ok {a b : PyVal} (ha : isStrVal a = true) (hb : isStrVal b = true) :
    ∃ r, pyLt a b = .ok r := by
  cases a with
  | str s =>
    cases b with
    | str t => exact ⟨decide (s < t), rfl⟩
    | none => simp [isStrVal] at hb
    | bool x => simp [isStrVal] at hb
    | int x => simp [isStrVal] at hb
    | float x => simp [isStrVal] at hb
    | list x => simp [isStrVal] at hb
    | tuple x => simp [isStrVal] at hb
    | dict x => simp [isStrVal] at hb
  | none => simp [isStrVal] at ha
  | bool x => simp [isStrVal] at ha
  | int x => simp [isStrVal] at ha
  | float x => simp [isStrVal] at ha
  | list x => simp [isStrVal] at ha
  | tuple x => simp [isStrVal] at ha
  | dict x => simp [isStrVal] at ha

theorem pyMaxGo_ok {P : PyVal → Prop}
    (hP : ∀ a b, P a → P b → ∃ r, pyLt a b = .ok r) :
    ∀ (vs : List PyVal) (m : PyVal), P m → (∀ v ∈ vs, P v) →
      ∃ r, pyMaxGo m vs = .ok r := by
  intro vs
  induction vs with
  | nil => exact fun m _ _ => ⟨m, rfl⟩
  | cons v rest ih =>
    intro m hm hvs
    obtain ⟨b, hb⟩ := hP m v hm (hvs v (by simp))
    rw [pyMaxGo, show pyGt v m = pyLt m v from rfl, hb, exbind_ok]
    have hnext : P (if b then v else m) := by
      cases b
      · simpa using hm
      · simpa using hvs v (by simp)
    exact ih _ hnext (fun w hw => hvs w (by simp [hw]))

theorem pyMax_ok {l : List PyVal} (hne : l ≠ [])
    (h : (∀ v ∈ l, (pyNum v).isSome = true) ∨ (∀ v ∈ l, isStrVal v = true)) :
    ∃ r, pyMax l = .ok r := by
  cases l with
  | nil => exact absurd rfl hne
  | cons x rest =>
    rw [pyMax]
    rcases h with hn | hs
    · exact pyMaxGo_ok (fun a b ha hb => pyLt_num_ok ha hb) rest x (hn x (by simp))
        (fun v hv => hn v (by simp [hv]))
    · exact pyMaxGo_ok (fun a b ha hb => pyLt_str_ok ha hb) rest x (hs x (by simp))
        (fun v hv => hs v (by simp [hv]))

theorem mapExc_itemGet_ok {items : List PyVal} {k : String} {d : PyVal}
    (h : ∀ it ∈ items, isDictVal it = true) :
    ∃ ys, mapExc items (fun it => itemGet it k d) = .ok ys :=
  ⟨_, mapExc_itemGet h⟩

theorem enum_snd_mem {α : Type} {l : List α} {p : Nat × α} (h : p ∈ l.enum) : p.2 ∈ l := by
  have h2 : (l.enum.map Prod.snd) = l := List.enum_map_snd l
  rw [← h2]
  exact List.mem_map_of_mem _ h

theorem filteredGroupVals_ok {items : List PyVal}
    (h : ∀ it ∈ items, scalarPoint it = true) :
    ∃ vs, filteredGroupVals items = .ok vs ∧ ∀ v ∈ vs, isScalar v = true := by
  induction items with
  | nil => exact ⟨[], rfl, by simp⟩
  | cons it rest ih =>
    obtain ⟨vs, hvs, hsc⟩ := ih (fun x hx => h x (by simp [hx]))
    obtain ⟨fields, rfl⟩ := isDictVal_shape (scalarPoint_isDict (h it (by simp)))
    have hval : isScalar (pointField "group" (PyVal.str "") (PyVal.dict fields)) = true :=
      isScalar_pointField (h _ (by simp)) rfl
    rw [filteredGroupVals, show pyContains (PyVal.dict fields) "group" =
        .ok (fields.any (fun kv => kv.1 == "group")) from rfl, exbind_ok]
    cases hg : fields.any (fun kv => kv.1 == "group") with
    | true =>
      rw [if_pos rfl, itemGet_dict, exbind_ok, hvs, exbind_ok]
      refine ⟨_, rfl, ?_⟩
      intro v hv
      rcases List.mem_cons.mp hv with rfl | hv2
      · exact hval
      · exact hsc v hv2
    | false =>
      rw [if_neg (by simp), hvs]
      exact ⟨vs, rfl, hsc⟩

theorem fallbackPie_ok {title ir : PyVal} {items : List PyVal}
    (hir : (pyNum ir).isSome = true) (h : ∀ it ∈ items, scalarPoint it = true) :
    ∃ o, fallbackPie title ir items = .ok o := by
  obtain ⟨b, hb⟩ := pyLt_num_ok (show (pyNum (PyVal.int 0)).isSome = true from rfl) hir
  obtain ⟨ys, hys, _⟩ := mapExc_ok (P := fun _ => True) (l := items)
    (f := fun it => do
      let n ← itemGet it "category" (PyVal.str "Item")
      let v ← itemGet it "value" (PyVal.int 0)
      pure (PyVal.dict [("name", n), ("value", v)]))
    (fun it hit => by
      obtain ⟨fields, rfl⟩ := isDictVal_shape (scalarPoint_isDict (h it hit))
      exact ⟨_, rfl, trivial⟩)
  rw [fallbackPie, show pyGt ir (PyVal.int 0) = pyLt (PyVal.int 0) ir from rfl, hb,
      exbind_ok, hys, exbind_ok]
  exact ⟨_, rfl⟩

theorem fallbackBarGrouped_ok {title : PyVal} {st : Bool} {items : List PyVal}
    (h : ∀ it ∈ items, scalarPoint it = true) :
    ∃ o, fallbackBarGrouped title st items = .ok o := by
  have hdicts : ∀ it ∈ items, isDictVal it = true :=
    fun it hit => scalarPoint_isDict (h it hit)
  have hsc1 : ∀ v ∈ items.map (pointField "category" (PyVal.str "")), isScalar v = true :=
    map_pointField_scalar h rfl
  obtain ⟨gvs, hgvs, hgsc⟩ := filteredGroupVals_ok h
  obtain ⟨series, hseries⟩ := mapExc_ok2
    (l := dedupPyGo gvs [])
    (f := fun g => do
      let group_data ← mapExc (dedupPyGo (items.map (pointField "category" (PyVal.str ""))) [])
        (fun c => findGroupValue items "category" c g)
      let base := [("name", g), ("type", PyVal.str "bar"), ("data", PyVal.list group_data)]
      pure (PyVal.dict (if st then pyDictInsert base "stack" (PyVal.str "total") else base)))
    (fun g hg => by
      have hmap := mapExc_eq_map (l := dedupPyGo (items.map (pointField "category" (PyVal.str ""))) [])
        (f := fun c => findGroupValue items "category" c g)
        (g := fun c => resolvedValue items "category" c g)
        (fun c _ => findGroupValue_eq hdicts)
      simp only [hmap, exbind_ok]
      exact ⟨_, rfl⟩)
  rw [fallbackBarGrouped, mapExc_itemGet hdicts, exbind_ok,
      dedupPy_of_scalars hsc1, exbind_ok, hgvs, exbind_ok,
      dedupPy_of_scalars hgsc, exbind_ok, hseries, exbind_ok]
  exact ⟨_, rfl⟩

theorem fallbackBarSimple_ok {title : PyVal} {items : List PyVal}
    (h : ∀ it ∈ items, scalarPoint it = true) :
    ∃ o, fallbackBarSimple title items = .ok o := by
  obtain ⟨cs, hcs, _⟩ := mapExc_ok (P := fun _ => True) (l := items.enum)
    (f := fun p => itemGet p.2 "category" (PyVal.str ("Item " ++ toString p.1)))
    (fun p hp => by
      obtain ⟨fields, hf⟩ := isDictVal_shape (scalarPoint_isDict (h p.2 (enum_snd_mem hp)))
      simp only [hf]
      exact ⟨_, rfl, trivial⟩)
  obtain ⟨vs, hvs⟩ := mapExc_itemGet_ok (k := "value") (d := PyVal.int 0)
    (fun it hit => scalarPoint_isDict (h it hit))
  rw [fallbackBarSimple, hcs, exbind_ok, hvs, exbind_ok]
  exact ⟨_, rfl⟩

theorem fallbackLineStacked_ok {title : PyVal} {sm sa : Bool} {items : List PyVal}
    (h : ∀ it ∈ items, scalarPoint it = true) :
    ∃ o, fallbackLineStacked title sm sa items = .ok o := by
  have hdicts : ∀ it ∈ items, isDictVal it = true :=
    fun it hit => scalarPoint_isDict (h it hit)
  have hsc1 : ∀ v ∈ items.map (pointField "time" (PyVal.str "")), isScalar v = true :=
    map_pointField_scalar h rfl
  obtain ⟨gvs, hgvs, hgsc⟩ := filteredGroupVals_ok h
  obtain ⟨series, hseries⟩ := mapExc_ok2
    (l := dedupPyGo gvs [])
    (f := fun g => do
      let group_data ← mapExc (dedupPyGo (items.map (pointField "time" (PyVal.str ""))) [])
        (fun t => findGroupValue items "time" t g)
      let base := [("name", g), ("type", PyVal.str "line"),
                   ("stack", PyVal.str "total"), ("data", PyVal.list group_data)]
      let cfg := if sa then pyDictInsert base "areaStyle" (PyVal.dict []) else base
      let cfg := if sm then pyDictInsert cfg "smooth" (PyVal.bool true) else cfg
      pure (PyVal.dict cfg))
    (fun g hg => by
      have hmap := mapExc_eq_map (l := dedupPyGo (items.map (pointField "time" (PyVal.str ""))) [])
        (f := fun t => findGroupValue items "time" t g)
        (g := fun t => resolvedValue items "time" t g)
        (fun t _ => findGroupValue_eq hdicts)
      simp only [hmap, exbind_ok]
      exact ⟨_, rfl⟩)
  rw [fallbackLineStacked, mapExc_itemGet hdicts, exbind_ok,
      dedupPy_of_scalars hsc1, exbind_ok, hgvs, exbind_ok,
      dedupPy_of_scalars hgsc, exbind_ok, hseries, exbind_ok]
  exact ⟨_, rfl⟩

theorem fallbackLineSimple_ok {title : PyVal} {sm sa : Bool} {items : List PyVal}
    (h : ∀ it ∈ items, scalarPoint it = true) :
    ∃ o, fallbackLineSimple title sm sa items = .ok o := by
  obtain ⟨ts, hts, _⟩ := mapExc_ok (P := fun _ => True) (l := items.enum)
    (f := fun p => itemGet p.2 "time" (PyVal.str ("T" ++ toString p.1)))
    (fun p hp => by
      obtain ⟨fields, hf⟩ := isDictVal_shape (scalarPoint_isDict (h p.2 (enum_snd_mem hp)))
      simp only [hf]
      exact ⟨_, rfl, trivial⟩)
  obtain ⟨vs, hvs⟩ := mapExc_itemGet_ok (k := "value") (d := PyVal.int 0)
    (fun it hit => scalarPoint_isDict (h it hit))
  rw [fallbackLineSimple, hts, exbind_ok, hvs, exbind_ok]
  cases sa <;> cases sm <;> exact ⟨_, rfl⟩

theorem fallbackHeatmap_ok {title : PyVal} {items : List PyVal}
    (h : ∀ it ∈ items, scalarPoint it = true)
    (hc : (∀ v ∈ items.map (pointField "value" (PyVal.int 0)), (pyNum v).isSome = true) ∨
          (∀ v ∈ items.map (pointField "value" (PyVal.int 0)), isStrVal v = true)) :
    ∃ o, fallbackHeatmap title items = .ok o := by
  have htriples : mapExc items (fun it => do
      let x ← itemGet it "x" (PyVal.int 0)
      let y ← itemGet it "y" (PyVal.int 0)
      let v ← itemGet it "value" (PyVal.int 0)
      pure (x, y, v)) = .ok (items.map (fun it =>
        (pointField "x" (PyVal.int 0) it, pointField "y" (PyVal.int 0) it,
         pointField "value" (PyVal.int 0) it))) := by
    apply mapExc_eq_map
    intro it hit
    obtain ⟨fields, rfl⟩ := isDictVal_shape (scalarPoint_isDict (h it hit))
    rfl
  rw [fallbackHeatmap, htriples, exbind_ok]
  cases items with
  | nil => exact ⟨_, rfl⟩
  | cons it rest =>
    have hthird : ((it :: rest).map (fun x =>
        (pointField "x" (PyVal.int 0) x, pointField "y" (PyVal.int 0) x,
         pointField "value" (PyVal.int 0) x))).map (fun t => t.2.2) =
        (it :: rest).map (pointField "value" (PyVal.int 0)) := by
      rw [List.map_map]
      rfl
    obtain ⟨m, hm⟩ := pyMax_ok (l := (it :: rest).map (pointField "value" (PyVal.int 0)))
      (by simp) hc
    rw [if_neg (by simp), hthird, hm, exbind_ok]
    exact ⟨_, rfl⟩

theorem fallbackGeneric_ok {chart_type : String} {title : PyVal} {items : List PyVal}
    (h : ∀ it ∈ items, scalarPoint it = true) :
    ∃ o, fallbackGeneric chart_type title items = .ok o := by
  obtain ⟨vs, hvs⟩ := mapExc_itemGet_ok (k := "value") (d := PyVal.int 0)
    (fun it hit => scalarPoint_isDict (h it hit))
  rw [fallbackGeneric, hvs, exbind_ok]
  exact ⟨_, rfl⟩

theorem wf_decompose {kvs : List (String × PyVal)}
    (h : wellFormedChartData (PyVal.dict kvs) = true) :
    ∃ items, pyIterate ((lookupStr "data" kvs).getD (PyVal.list [])) = .ok items ∧
      (∀ it ∈ items, scalarPoint it = true) ∧
      items.map (pointField "value" (PyVal.int 0)) = pointValues (PyVal.dict kvs) ∧
      (pyNum ((lookupStr "innerRadius" kvs).getD (PyVal.int 0))).isSome = true := by
  have h2 : ((match lookupStr "data" kvs with
     | some (PyVal.list items) => items.all scalarPoint
     | some _ => false
     | Option.none => true) &&
    (match lookupStr "innerRadius" kvs with
     | some v => (pyNum v).isSome
     | Option.none => true)) = true := h
  rw [Bool.and_eq_true] at h2
  obtain ⟨hd, hi⟩ := h2
  have hir : (pyNum ((lookupStr "innerRadius" kvs).getD (PyVal.int 0))).isSome = true := by
    cases hl : lookupStr "innerRadius" kvs with
    | none => rfl
    | some v =>
      rw [hl] at hi
      simpa using hi
  cases hl : lookupStr "data" kvs with
  | none =>
    rw [hl] at hd
    refine ⟨[], rfl, by simp, ?_, hir⟩
    rw [pointValues, hl]
    rfl
  | some v =>
    rw [hl] at hd
    cases v with
    | list items =>
      refine ⟨items, by rfl, ?_, ?_, hir⟩
      · intro it hit
        rw [List.all_eq_true] at hd
        exact hd it hit
      · rw [pointValues, hl]
    | none => simp at hd
    | bool b => simp at hd
    | int n => simp at hd
    | float q => simp at hd
    | str s => simp at hd
    | tuple l => simp at hd
    | dict l => simp at hd

/-! Claim theorems. -/

/-- Claim C1 (code_bug evidence): the claim says a wildcard `*` projection
contributes no column name, but `extract_column_names_from_sql` returns
`["*"]` on `SELECT * FROM t` — the swapped-argument `re.sub` on line 71 makes
the wildcard-skip branch dead code, so every projection, wildcard included,
contributes one name. -/
theorem c1_wildcard_projection_yields_name :
    extract_column_names_from_sql "SELECT * FROM t" = ["*"] ∧
    extract_column_names_from_sql "SELECT District, Type, vehicle_count FROM data" =
      ["District", "Type", "vehicle_count"] := ⟨rfl, rfl⟩

/-- Claim C2 (code_bug evidence): the claim says a dot-qualified projection
keeps only its trailing segment, but `extract_column_names_from_sql` returns
`["t.name"]` on `SELECT t.name FROM t` — the cleaning pipeline of lines 71-81
never runs because `re.sub(pattern, col, "")` rewrites the empty string; the
bracket-delimited example still holds because the fallback branch strips
brackets from the original text. -/
theorem c2_dot_qualified_projection_kept_whole :
    extract_column_names_from_sql "SELECT t.name FROM t" = ["t.name"] ∧
    extract_column_names_from_sql "SELECT [County Name] FROM Data" = ["County Name"] := ⟨rfl, rfl⟩

/-- A list of two mappings with different keys, already in parsed form. -/
def c3Input : PyVal :=
  PyVal.list [PyVal.dict [("a", PyVal.int 1)], PyVal.dict [("b", PyVal.int 2)]]

/-- Claim C3 (counterexample): `parse_sql_results` returns a list of mappings
input unchanged (the identity case), so a pre-built list with non-uniform
keys comes back with non-uniform keys, refuting the claim for every input
value. -/
theorem c3_counterexample :
    parse_sql_results c3Input "" = [PyVal.dict [("a", PyVal.int 1)], PyVal.dict [("b", PyVal.int 2)]] ∧
    uniformKeys (parse_sql_results c3Input "") = false := ⟨rfl, rfl⟩

/-- Claim C3 (amended): whenever `parse_sql_results` constructs rows itself —
the header-zipping logic `rowsToDicts` shared by its two string-parsing
paths — every mapping in the result carries the identical key list (the
chosen headers, first occurrence deduplicated), in the same order; only the
pass-through cases (a list of mappings, a JSON array) can violate
uniformity. -/
theorem c3_uniform_keys_of_constructed_rows (rows : List (List PyVal)) (sql_query : String) :
    uniformKeys (rowsToDicts rows sql_query) = true := by
  rw [rowsToDicts_eq_filter_map]
  apply uniformKeys_const (K := keyDedupFold [] (chooseHeaders rows sql_query).1)
  intro x hx
  rw [List.mem_map] at hx
  obtain ⟨r, hr, rfl⟩ := hx
  have hlen : (r.length == (chooseHeaders rows sql_query).1.length) = true :=
    (List.mem_filter.mp hr).2
  have hlen2 : (chooseHeaders rows sql_query).1.length = r.length := by
    have h2 : r.length = (chooseHeaders rows sql_query).1.length := by simpa using hlen
    omega
  refine ⟨rfl, ?_⟩
  show ((pyDictOfPairs ((chooseHeaders rows sql_query).1.zip r)).map Prod.fst) = _
  rw [keys_pyDictOfPairs]
  congr 1
  exact List.map_fst_zip _ _ (le_of_eq hlen2)

/-- A direct list-of-tuples input whose second row has one field too many. -/
def c5Input : PyVal :=
  PyVal.list [PyVal.tuple [PyVal.int 1, PyVal.int 2],
              PyVal.tuple [PyVal.int 3, PyVal.int 4, PyVal.int 5]]

/-- Claim C5 (counterexample): in the direct sequence-of-tuples path the
three-field row `(3, 4, 5)` is not dropped against the two generic headers —
`dict(zip(...))` keeps it truncated to its first two fields. -/
theorem c5_counterexample :
    parse_sql_results c5Input "" =
      [PyVal.dict [("col_0", PyVal.int 1), ("col_1", PyVal.int 2)],
       PyVal.dict [("col_0", PyVal.int 3), ("col_1", PyVal.int 4)]] := rfl

/-- Claim C5 (amended): in the two string-parsing paths (their shared
`rowsToDicts` logic) a raw row whose field count disagrees with the header
count is dropped entirely — the output is exactly the full zip of the rows
that match, in order — while the direct sequence-of-tuples path zips
positionally, keeping over-long rows truncated. -/
theorem c5_mismatched_rows_dropped_in_string_paths :
    (∀ (rows : List (List PyVal)) (sql_query : String),
      rowsToDicts rows sql_query =
        (((chooseHeaders rows sql_query).2.filter
            (fun row => row.length == (chooseHeaders rows sql_query).1.length)).map
          (fun row => PyVal.dict (pyDictOfPairs ((chooseHeaders rows sql_query).1.zip row))))) ∧
    parse_sql_results c5Input "" =
      [PyVal.dict [("col_0", PyVal.int 1), ("col_1", PyVal.int 2)],
       PyVal.dict [("col_0", PyVal.int 3), ("col_1", PyVal.int 4)]] :=
  ⟨rowsToDicts_eq_filter_map, rfl⟩

/-- Claim C6: `select_chart_type` always lands in the fixed 16-element
enumeration, and returns `bar` whenever the completion capability raises or
its trimmed, lowercased, quote-stripped response is outside the
enumeration. -/
theorem c6_chart_type_always_in_enumeration (completion : Except Unit String) :
    validChartTypes.contains (select_chart_type completion) = true ∧
    (invalidChartResponse completion = true → select_chart_type completion = "bar") := by
  cases completion with
  | error e => cases e; exact ⟨by decide, fun _ => rfl⟩
  | ok s =>
    have hsel : select_chart_type (Except.ok s) =
        (if validChartTypes.contains (normalizeChartResponse s) then normalizeChartResponse s
         else "bar") := rfl
    have hinv : invalidChartResponse (Except.ok s) =
        !(validChartTypes.contains (normalizeChartResponse s)) := rfl
    by_cases h : validChartTypes.contains (normalizeChartResponse s) = true
    · rw [hsel, if_pos h]
      refine ⟨h, fun hc => ?_⟩
      rw [hinv, h] at hc
      simp at hc
    · rw [hsel, if_neg h]
      exact ⟨by decide, fun _ => rfl⟩

/-- Witness for C6 at a malformed response. -/
theorem c6_chart_type_always_in_enumeration_witness :
    validChartTypes.contains (select_chart_type (Except.ok "banana")) = true ∧
    select_chart_type (Except.ok "banana") = "bar" :=
  ⟨(c6_chart_type_always_in_enumeration (Except.ok "banana")).1,
   (c6_chart_type_always_in_enumeration (Except.ok "banana")).2 (by decide)⟩

/-- The tuple-string result of the claim C4 example. -/
def c4DataStr : String := "[(0, 'BEV', 222), (0, 'PHEV', 119)]"

/-- The rows the literal parser recovers from `c4DataStr`. -/
def c4Rows : List (List PyVal) :=
  [[PyVal.int 0, PyVal.str "BEV", PyVal.int 222],
   [PyVal.int 0, PyVal.str "PHEV", PyVal.int 119]]

/-- Claim C4: headers are chosen by priority — (a) for any query whose
extracted column names are the three projected names, they are used (their
count matches the rows), giving row 0 = `District: 0, Type: BEV,
vehicle_count: 222`; (b) with no query, a first row of all strings becomes
the header and is dropped; (c) otherwise generic `col_i` names are used. -/
theorem c4_header_priority (sql_query : String)
    (h : extract_column_names_from_sql sql_query = ["District", "Type", "vehicle_count"]) :
    parse_sql_results (PyVal.str c4DataStr) sql_query =
      [PyVal.dict [("District", PyVal.int 0), ("Type", PyVal.str "BEV"), ("vehicle_count", PyVal.int 222)],
       PyVal.dict [("District", PyVal.int 0), ("Type", PyVal.str "PHEV"), ("vehicle_count", PyVal.int 119)]] ∧
    parse_sql_results (PyVal.str "[('a', 'b'), (1, 2)]") "" =
      [PyVal.dict [("a", PyVal.int 1), ("b", PyVal.int 2)]] ∧
    parse_sql_results (PyVal.str "[(1, 2)]") "" =
      [PyVal.dict [("col_0", PyVal.int 1), ("col_1", PyVal.int 2)]] := by
  refine ⟨?_, rfl, rfl⟩
  have hne : sql_query ≠ "" := by
    intro he
    rw [he] at h
    exact absurd h (by decide)
  have h1 : parse_sql_results (PyVal.str c4DataStr) sql_query =
      rowsToDicts c4Rows sql_query := rfl
  rw [h1, rowsToDicts]
  simp only [c4Rows]
  rw [chooseHeaders_sql hne h (by decide) (by decide)]
  rfl

/-- Witness for C4 at a concrete query projecting the three names. -/
theorem c4_header_priority_witness :
    extract_column_names_from_sql "SELECT District, Type, vehicle_count FROM evs" =
      ["District", "Type", "vehicle_count"] ∧
    parse_sql_results (PyVal.str c4DataStr) "SELECT District, Type, vehicle_count FROM evs" =
      [PyVal.dict [("District", PyVal.int 0), ("Type", PyVal.str "BEV"), ("vehicle_count", PyVal.int 222)],
       PyVal.dict [("District", PyVal.int 0), ("Type", PyVal.str "PHEV"), ("vehicle_count", PyVal.int 119)]] :=
  ⟨rfl, (c4_header_priority "SELECT District, Type, vehicle_count FROM evs" rfl).1⟩

/-- Claim C7: for grouped data with the stack flag set, the bar fallback
builds one series per unique group (first-occurrence order, `dedupPyGo`),
each with one value per unique category resolved by exact match with 0 for
absent combinations (`resolvedValue`), every series carrying the stack
identifier `total` and the legend listing the groups; with only the group
flag set, the series carry no stack key. -/
theorem c7_grouped_bar_fallback (kvs : List (String × PyVal)) (items : List PyVal)
    (hdata : lookupStr "data" kvs = some (PyVal.list items))
    (hne : items ≠ [])
    (hpts : groupedPoints "category" items = true) :
    (pyTruthy ((lookupStr "stack" kvs).getD (PyVal.bool false)) = true →
      generate_fallback_obj "bar" (PyVal.dict kvs) = .ok (PyVal.dict [
        ("title", PyVal.dict [("text", (lookupStr "title" kvs).getD (PyVal.str "Chart")),
          ("left", PyVal.str "center")]),
        ("tooltip", PyVal.dict [("trigger", PyVal.str "axis"),
          ("axisPointer", PyVal.dict [("type", PyVal.str "shadow")])]),
        ("legend", PyVal.dict [("data",
          PyVal.list (dedupPyGo (items.map (pointField "group" (PyVal.str ""))) []))]),
        ("xAxis", PyVal.dict [("type", PyVal.str "category"), ("data",
          PyVal.list (dedupPyGo (items.map (pointField "category" (PyVal.str ""))) []))]),
        ("yAxis", PyVal.dict [("type", PyVal.str "value")]),
        ("series", PyVal.list
          ((dedupPyGo (items.map (pointField "group" (PyVal.str ""))) []).map (fun g =>
            PyVal.dict
              [("name", g), ("type", PyVal.str "bar"),
               ("data", PyVal.list
                 ((dedupPyGo (items.map (pointField "category" (PyVal.str ""))) []).map
                   (fun c => resolvedValue items "category" c g))),
               ("stack", PyVal.str "total")])))])) ∧
    (pyTruthy ((lookupStr "group" kvs).getD (PyVal.bool false)) = true →
     pyTruthy ((lookupStr "stack" kvs).getD (PyVal.bool false)) = false →
      generate_fallback_obj "bar" (PyVal.dict kvs) = .ok (PyVal.dict [
        ("title", PyVal.dict [("text", (lookupStr "title" kvs).getD (PyVal.str "Chart")),
          ("left", PyVal.str "center")]),
        ("tooltip", PyVal.dict [("trigger", PyVal.str "axis"),
          ("axisPointer", PyVal.dict [("type", PyVal.str "shadow")])]),
        ("legend", PyVal.dict [("data",
          PyVal.list (dedupPyGo (items.map (pointField "group" (PyVal.str ""))) []))]),
        ("xAxis", PyVal.dict [("type", PyVal.str "category"), ("data",
          PyVal.list (dedupPyGo (items.map (pointField "category" (PyVal.str ""))) []))]),
        ("yAxis", PyVal.dict [("type", PyVal.str "value")]),
        ("series", PyVal.list
          ((dedupPyGo (items.map (pointField "group" (PyVal.str ""))) []).map (fun g =>
            PyVal.dict
              [("name", g), ("type", PyVal.str "bar"),
               ("data", PyVal.list
                 ((dedupPyGo (items.map (pointField "category" (PyVal.str ""))) []).map
                   (fun c => resolvedValue items "category" c g)))])))])) := by
  constructor
  · intro hst
    rw [generate_fallback_obj_bar_grouped hdata
        (by rw [hasGroupsOf_grouped hpts hne, hst]; rfl),
      fallbackBarGrouped_eq hpts, hst]
    rfl
  · intro hgr hst
    rw [generate_fallback_obj_bar_grouped hdata
        (by rw [hasGroupsOf_grouped hpts hne, hst, hgr]; rfl),
      fallbackBarGrouped_eq hpts, hst]
    rfl

/-- The two-point King BEV/PHEV chart data of the claim C7 example. -/
def kingItems : List PyVal :=
  [PyVal.dict [("category", PyVal.str "King"), ("value", PyVal.int 5000), ("group", PyVal.str "BEV")],
   PyVal.dict [("category", PyVal.str "King"), ("value", PyVal.int 2000), ("group", PyVal.str "PHEV")]]

/-- The claim C7 example chart data with the stack flag set. -/
def kingKvs : List (String × PyVal) :=
  [("data", PyVal.list kingItems), ("stack", PyVal.bool true)]

/-- Witness for C7 on the King example: exactly 2 series, both stacked on
`total`, legend `[BEV, PHEV]`. -/
theorem c7_grouped_bar_fallback_witness :
    generate_fallback_obj "bar" (PyVal.dict kingKvs) = .ok (PyVal.dict [
      ("title", PyVal.dict [("text", PyVal.str "Chart"), ("left", PyVal.str "center")]),
      ("tooltip", PyVal.dict [("trigger", PyVal.str "axis"),
        ("axisPointer", PyVal.dict [("type", PyVal.str "shadow")])]),
      ("legend", PyVal.dict [("data", PyVal.list [PyVal.str "BEV", PyVal.str "PHEV"])]),
      ("xAxis", PyVal.dict [("type", PyVal.str "category"),
        ("data", PyVal.list [PyVal.str "King"])]),
      ("yAxis", PyVal.dict [("type", PyVal.str "value")]),
      ("series", PyVal.list [
        PyVal.dict [("name", PyVal.str "BEV"), ("type", PyVal.str "bar"),
          ("data", PyVal.list [PyVal.int 5000]), ("stack", PyVal.str "total")],
        PyVal.dict [("name", PyVal.str "PHEV"), ("type", PyVal.str "bar"),
          ("data", PyVal.list [PyVal.int 2000]), ("stack", PyVal.str "total")]])]) :=
  (c7_grouped_bar_fallback kingKvs kingItems rfl (List.cons_ne_nil _ _) (by decide)).1 rfl

/-- Claim C8 (counterexample): with the group flag set but the stack flag
unset, the line fallback takes the simple-line branch — one merged series
over the raw values, not one series per group sharing a stack identifier. -/
def c8GroupOnly : PyVal := PyVal.dict [
  ("data", PyVal.list [
    PyVal.dict [("time", PyVal.str "2020"), ("value", PyVal.int 1), ("group", PyVal.str "A")],
    PyVal.dict [("time", PyVal.str "2020"), ("value", PyVal.int 2), ("group", PyVal.str "B")]]),
  ("group", PyVal.bool true)]

/-- Claim C8 (counterexample): the group-only line input yields a single
series of all raw values, with no per-group split and no stack key. -/
theorem c8_counterexample :
    generate_fallback_obj "line" c8GroupOnly = .ok (PyVal.dict [
      ("title", PyVal.dict [("text", PyVal.str "Chart"), ("left", PyVal.str "center")]),
      ("tooltip", PyVal.dict [("trigger", PyVal.str "axis")]),
      ("xAxis", PyVal.dict [("type", PyVal.str "category"),
        ("data", PyVal.list [PyVal.str "2020", PyVal.str "2020"])]),
      ("yAxis", PyVal.dict [("type", PyVal.str "value")]),
      ("series", PyVal.list [PyVal.dict [("type", PyVal.str "line"),
        ("data", PyVal.list [PyVal.int 1, PyVal.int 2])]])]) := rfl

/-- Claim C8 (amended): only the stack flag triggers the multi-series line
path (the group flag alone does not); there, the bar cross-product logic is
keyed by `time`, every series carries the stack identifier `total`, and area
fill is attached exactly when the showArea flag is set. -/
theorem c8_stacked_line_fallback (kvs : List (String × PyVal)) (items : List PyVal)
    (hdata : lookupStr "data" kvs = some (PyVal.list items))
    (hne : items ≠ [])
    (hpts : groupedPoints "time" items = true)
    (hst : pyTruthy ((lookupStr "stack" kvs).getD (PyVal.bool false)) = true) :
    generate_fallback_obj "line" (PyVal.dict kvs) = .ok (PyVal.dict [
      ("title", PyVal.dict [("text", (lookupStr "title" kvs).getD (PyVal.str "Chart")),
        ("left", PyVal.str "center")]),
      ("tooltip", PyVal.dict [("trigger", PyVal.str "axis")]),
      ("legend", PyVal.dict [("data",
        PyVal.list (dedupPyGo (items.map (pointField "group" (PyVal.str ""))) []))]),
      ("xAxis", PyVal.dict [("type", PyVal.str "category"), ("data",
        PyVal.list (dedupPyGo (items.map (pointField "time" (PyVal.str ""))) []))]),
      ("yAxis", PyVal.dict [("type", PyVal.str "value")]),
      ("series", PyVal.list
        ((dedupPyGo (items.map (pointField "group" (PyVal.str ""))) []).map (fun g =>
          PyVal.dict (
            [("name", g), ("type", PyVal.str "line"), ("stack", PyVal.str "total"),
             ("data", PyVal.list
               ((dedupPyGo (items.map (pointField "time" (PyVal.str ""))) []).map
                 (fun t => resolvedValue items "time" t g)))] ++
            (if pyTruthy ((lookupStr "showArea" kvs).getD (PyVal.bool false)) then
              [("areaStyle", PyVal.dict [])] else []) ++
            (if pyTruthy ((lookupStr "smooth" kvs).getD (PyVal.bool false)) then
              [("smooth", PyVal.bool true)] else [])))))]) := by
  rw [generate_fallback_obj_line_stacked hdata
      (by rw [hasGroupsOf_grouped hpts hne, hst]; rfl),
    fallbackLineStacked_eq hpts]

/-- The two-point stacked area line data for the C8 witness. -/
def c8StackedKvs : List (String × PyVal) :=
  [("data", PyVal.list [
    PyVal.dict [("time", PyVal.str "2020"), ("value", PyVal.int 1), ("group", PyVal.str "A")],
    PyVal.dict [("time", PyVal.str "2021"), ("value", PyVal.int 2), ("group", PyVal.str "B")]]),
   ("stack", PyVal.bool true), ("showArea", PyVal.bool true)]

/-- Witness for the amended C8 on a concrete stacked area line. -/
theorem c8_stacked_line_fallback_witness :
    generate_fallback_obj "line" (PyVal.dict c8StackedKvs) = .ok (PyVal.dict [
      ("title", PyVal.dict [("text", PyVal.str "Chart"), ("left", PyVal.str "center")]),
      ("tooltip", PyVal.dict [("trigger", PyVal.str "axis")]),
      ("legend", PyVal.dict [("data", PyVal.list [PyVal.str "A", PyVal.str "B"])]),
      ("xAxis", PyVal.dict [("type", PyVal.str "category"),
        ("data", PyVal.list [PyVal.str "2020", PyVal.str "2021"])]),
      ("yAxis", PyVal.dict [("type", PyVal.str "value")]),
      ("series", PyVal.list [
        PyVal.dict [("name", PyVal.str "A"), ("type", PyVal.str "line"),
          ("stack", PyVal.str "total"), ("data", PyVal.list [PyVal.int 1, PyVal.int 0]),
          ("areaStyle", PyVal.dict [])],
        PyVal.dict [("name", PyVal.str "B"), ("type", PyVal.str "line"),
          ("stack", PyVal.str "total"), ("data", PyVal.list [PyVal.int 0, PyVal.int 2]),
          ("areaStyle", PyVal.dict [])]])]) :=
  c8_stacked_line_fallback c8StackedKvs
    [PyVal.dict [("time", PyVal.str "2020"), ("value", PyVal.int 1), ("group", PyVal.str "A")],
     PyVal.dict [("time", PyVal.str "2021"), ("value", PyVal.int 2), ("group", PyVal.str "B")]]
    rfl (List.cons_ne_nil _ _) (by decide) rfl

/-- Chart data for the C9 counterexample: a well-formed heatmap whose point
values mix a number and a string. -/
def c9HeatmapMixed : PyVal :=
  PyVal.dict [("data", PyVal.list [
    PyVal.dict [("x", PyVal.int 0), ("y", PyVal.int 0), ("value", PyVal.int 3)],
    PyVal.dict [("x", PyVal.int 0), ("y", PyVal.int 1), ("value", PyVal.str "high")]])]

/-- Claim C9 (counterexample): the fallback generator is not total on all
well-formed chart data — on a heatmap whose scalar point values mix a number
and a string, the `max()` call of echarts.py line 676 raises `TypeError`, so
`generate_fallback_option` raises rather than returning a spec string. -/
theorem c9_counterexample :
    wellFormedChartData c9HeatmapMixed = true ∧
    generate_fallback_option "heatmap" c9HeatmapMixed = .error () := ⟨rfl, rfl⟩

/-- An `if`-dispatch over a boolean succeeds when both branches do. -/
theorem ite_ok {c : Bool} {A B : Except Unit PyVal}
    (hA : ∃ o, A = .ok o) (hB : ∃ o, B = .ok o) :
    ∃ o, (if c = true then A else B) = .ok o := by
  cases c
  · rw [if_neg (by simp)]
    exact hB
  · rw [if_pos rfl]
    exact hA

/-- Claim C9 (amended): `generate_fallback_option` never raises on well-formed
chart data provided the heatmap point values are mutually comparable (all
numeric or all strings) whenever the requested type is `heatmap`; every other
chart type is total on well-formed data unconditionally. -/
theorem c9_total_on_well_formed_data (ct : String) (cd : PyVal)
    (hwf : wellFormedChartData cd = true)
    (hcmp : ct = "heatmap" → heatmapValuesComparable cd = true) :
    ∃ s, generate_fallback_option ct cd = .ok s := by
  cases cd with
  | dict kvs =>
    obtain ⟨items, hiter, hsc, hpv, hir⟩ := wf_decompose hwf
    suffices hobj : ∃ o, generate_fallback_obj ct (PyVal.dict kvs) = .ok o by
      obtain ⟨o, ho⟩ := hobj
      exact ⟨pyJsonDumps o, by rw [generate_fallback_option, ho]; rfl⟩
    rw [generate_fallback_obj, show asDict (PyVal.dict kvs) = .ok kvs from rfl, exbind_ok]
    simp only [hiter, exbind_ok]
    by_cases hp : (ct == "pie") = true
    · rw [if_pos hp]
      exact fallbackPie_ok hir hsc
    · rw [if_neg hp]
      by_cases hb : (ct == "bar") = true
      · rw [if_pos hb]
        exact ite_ok (fallbackBarGrouped_ok hsc) (fallbackBarSimple_ok hsc)
      · rw [if_neg hb]
        by_cases hl : (ct == "line") = true
        · rw [if_pos hl]
          exact ite_ok (fallbackLineStacked_ok hsc) (fallbackLineSimple_ok hsc)
        · rw [if_neg hl]
          by_cases hh : (ct == "heatmap") = true
          · rw [if_pos hh]
            have hcv : heatmapValuesComparable (PyVal.dict kvs) = true := hcmp (eq_of_beq hh)
            rw [heatmapValuesComparable, ← hpv, Bool.or_eq_true,
                List.all_eq_true, List.all_eq_true] at hcv
            exact fallbackHeatmap_ok hsc (hcv.imp (fun hn v hv => hn v hv) (fun hs v hv => hs v hv))
          · rw [if_neg hh]
            exact fallbackGeneric_ok hsc
  | none => exact (Bool.false_ne_true hwf).elim
  | bool b => exact (Bool.false_ne_true hwf).elim
  | int n => exact (Bool.false_ne_true hwf).elim
  | float q => exact (Bool.false_ne_true hwf).elim
  | str s => exact (Bool.false_ne_true hwf).elim
  | list l => exact (Bool.false_ne_true hwf).elim
  | tuple l => exact (Bool.false_ne_true hwf).elim

/-- A two-point all-numeric heatmap for the C9 witness. -/
def c9GoodHeatmap : PyVal :=
  PyVal.dict [("title", PyVal.str "Heat"), ("data", PyVal.list [
    PyVal.dict [("x", PyVal.int 0), ("y", PyVal.int 0), ("value", PyVal.int 5)],
    PyVal.dict [("x", PyVal.int 1), ("y", PyVal.int 0), ("value", PyVal.int 2)]])]

/-- Witness for the amended C9 on a concrete comparable heatmap. -/
theorem c9_total_on_well_formed_data_witness :
    wellFormedChartData c9GoodHeatmap = true ∧
    ∃ s, generate_fallback_option "heatmap" c9GoodHeatmap = .ok s :=
  ⟨rfl, c9_total_on_well_formed_data "heatmap" c9GoodHeatmap rfl (fun _ => rfl)⟩

/-- Claim C10: on chart type `heatmap`, and on every chart type outside
`bar`, `line` and `pie`, the fallback generator of echarts.py and the one of
echarts_generator.py return identical output for every chart-data value —
their heatmap and generic branches are textually duplicated code, and the
modules differ only in the pie, bar and line handling. -/
theorem c10_fallback_generators_agree (ct : String) (cd : PyVal)
    (h : ct = "heatmap" ∨ (ct ≠ "bar" ∧ ct ≠ "line" ∧ ct ≠ "pie")) :
    generate_fallback_option ct cd = EchartsGenerator.generate_fallback_option ct cd := by
  suffices hobj : generate_fallback_obj ct cd = EchartsGenerator.generate_fallback_obj ct cd by
    show (generate_fallback_obj ct cd).map pyJsonDumps = _
    rw [hobj]
    rfl
  rcases h with rfl | ⟨hb, hl, hp⟩
  · rfl
  · by_cases hh : (ct == "heatmap") = true
    · obtain rfl := eq_of_beq hh
      rfl
    · have hh2 : (ct == "heatmap") = false := by simpa using hh
      have hb2 : (ct == "bar") = false := by simpa using hb
      have hl2 : (ct == "line") = false := by simpa using hl
      have hp2 : (ct == "pie") = false := by simpa using hp
      rw [generate_fallback_obj, EchartsGenerator.generate_fallback_obj]
      simp only [hp2, hb2, hl2, hh2]
      rfl

/-- Witness for C10 at chart type heatmap on the comparable heatmap data. -/
theorem c10_fallback_generators_agree_witness :
    ("heatmap" = "heatmap" ∨
      ("heatmap" ≠ "bar" ∧ "heatmap" ≠ "line" ∧ "heatmap" ≠ "pie")) ∧
    generate_fallback_option "heatmap" (PyVal.dict [("data", PyVal.list [
      PyVal.dict [("x", PyVal.int 0), ("y", PyVal.int 0), ("value", PyVal.int 7)]])]) =
    EchartsGenerator.generate_fallback_option "heatmap" (PyVal.dict [("data", PyVal.list [
      PyVal.dict [("x", PyVal.int 0), ("y", PyVal.int 0), ("value", PyVal.int 7)]])]) :=
  ⟨Or.inl rfl, c10_fallback_generators_agree "heatmap" (PyVal.dict [("data", PyVal.list [
      PyVal.dict [("x", PyVal.int 0), ("y", PyVal.int 0), ("value", PyVal.int 7)]])])
    (Or.inl rfl)⟩

end PathFinder
